import Mathlib

/-!
# Verification of the chat conversation orchestration core

Shallow embedding of `packages/cli/src/modules/chat-hub/chat-hub.service.ts`
(`ChatHubService`).  Pure computations (history building, conversation
history assembly, attachment block resolution) are translated directly;
the stateful service entry points (`sendHumanMessage`, `editMessage`,
`regenerateAIMessage`, `stopGeneration`, `getConversations`,
`reconnectToStream`) are embedded as pure functions over an explicit
environment of collaborator outcomes (repositories, attachment store,
workflow preparer, stream service), returning an `Except` result together
with the trace of calls (`ChatEvent`s) issued to the collaborators.
-/

namespace ChatHub

/-- A stored binary attachment reference (`IBinaryData`), restricted to the
fields the service reads. -/
structure BinaryData where
  id : Option String
  fileName : Option String
  mimeType : String
  deriving DecidableEq

/-- A workflow execution row, as loaded through the `execution` relation of a
message (`message.execution`, with `execution.workflow` giving `workflowId`). -/
structure ExecutionEntity where
  id : String
  workflowId : String
  deriving DecidableEq

/-- A chat message row (`ChatHubMessage` entity), restricted to the fields the
service reads.  `attachments` models `message.attachments ?? []`; `execution`
is the optional loaded execution relation. -/
structure ChatHubMessage where
  id : String
  type : String
  content : String
  previousMessageId : Option String
  retryOfMessageId : Option String
  revisionOfMessageId : Option String
  status : Option String
  executionId : Option String
  attachments : List BinaryData
  execution : Option ExecutionEntity
  deriving DecidableEq

/-- A chat session row (`ChatHubSession` entity): owner, provider binding and
the loaded `messages` relation (`session.messages ?? []`). -/
structure ChatHubSession where
  id : String
  ownerId : String
  provider : String
  messages : List ChatHubMessage
  deriving DecidableEq

/-- `Object.fromEntries(messages.map(m => [m.id, m]))`: the id-keyed mapping
the service builds before walking history. -/
def messagesById (msgs : List ChatHubMessage) : List (String × ChatHubMessage) :=
  msgs.map (fun m => (m.id, m))

/-- The `while` loop of `buildMessageHistory`: walk the `previousMessageId`
chain backward, prepending each id (`historyIds.unshift(current)`), stopping
on a null link, a dangling link (`messages[current]?.previousMessageId ?? null`)
or an already-visited id.  The source keeps a separate `visited` set, but it
always holds exactly the ids already prepended to `historyIds`, so the embedding
uses the accumulated list for the visited check. -/
def walkHistory (messages : List (String × ChatHubMessage)) (ocur : Option String)
    (historyIds : List String) : List String :=
  match ocur with
  | none => historyIds
  | some current =>
    if current ∈ historyIds then historyIds
    else
      walkHistory messages ((messages.lookup current).bind (fun m => m.previousMessageId))
        (current :: historyIds)
termination_by
  ((messages.map Prod.fst).toFinset \ historyIds.toFinset).card +
    (match ocur with
     | none => 0
     | some c => if (messages.lookup c).isSome then 2 else 1)
decreasing_by
  rename_i hmem
  have hlookup_mem : ∀ (l : List (String × ChatHubMessage)) (a : String) (b : ChatHubMessage),
      l.lookup a = some b → a ∈ l.map Prod.fst := by
    intro l a b hlk
    induction l with
    | nil => simp [List.lookup] at hlk
    | cons p t ih =>
      rw [List.lookup] at hlk
      by_cases hpc : a == p.1
      · simp only [List.map_cons, List.mem_cons]
        exact Or.inl (eq_of_beq hpc)
      · rw [Bool.not_eq_true] at hpc
        simp only [hpc] at hlk
        exact List.mem_cons_of_mem _ (ih hlk)
  have hcard_le : ∀ (K : Finset String) (c : String) (H : Finset String),
      (K \ insert c H).card ≤ (K \ H).card := by
    intro K c H
    apply Finset.card_le_card
    exact Finset.sdiff_subset_sdiff (le_refl _) (Finset.subset_insert _ _)
  have hcard_lt : ∀ (K : Finset String) (c : String) (H : Finset String),
      c ∈ K → c ∉ H → (K \ insert c H).card < (K \ H).card := by
    intro K c H hkey hmem2
    apply Finset.card_lt_card
    constructor
    · exact Finset.sdiff_subset_sdiff (le_refl _) (Finset.subset_insert _ _)
    · intro hcon
      have h2 := hcon (Finset.mem_sdiff.mpr ⟨hkey, hmem2⟩)
      rw [Finset.mem_sdiff] at h2
      exact h2.2 (Finset.mem_insert_self c H)
  rcases hlk : messages.lookup current with _ | m
  · have hle := hcard_le (messages.map Prod.fst).toFinset current historyIds.toFinset
    simp [hlk]
    omega
  · have hkey := hlookup_mem messages current m hlk
    have hlt := hcard_lt (messages.map Prod.fst).toFinset current historyIds.toFinset
      (List.mem_toFinset.mpr hkey) (fun hx => hmem (List.mem_toFinset.mp hx))
    simp [hlk]
    rcases m.previousMessageId with _ | c
    · simp
      omega
    · by_cases hc : (messages.lookup c).isSome
      · simp [hc]
        omega
      · simp [hc]
        omega

/-- `buildMessageHistory(messages, lastMessageId)`: walk the chain and then
resolve the collected ids (`historyIds.flatMap(id => messages[id] ?? [])`). -/
def buildMessageHistory (messages : List (String × ChatHubMessage))
    (lastMessageId : Option String) : List ChatHubMessage :=
  (walkHistory messages lastMessageId []).filterMap (fun id => messages.lookup id)

/-- The parent-link relation on collected ids: the message stored under `b`
points back to `a` (`a` is the older neighbour). -/
def prevLink (messages : List (String × ChatHubMessage)) (a b : String) : Prop :=
  (messages.lookup b).bind (fun m => m.previousMessageId) = some a

/-! ## Conversation history builder (`buildConversationHistory`,
`buildContentBlockForAttachment`, `isTextFile`) -/

/-- Metadata of the target model (`ChatModelMetadataDto`), restricted to the
declared input modalities consulted by the attachment resolution. -/
structure ModelMetadata where
  inputModalities : List String
  deriving DecidableEq

/-- A content block of an assembled message (`ContentBlock` in
`chat-hub.types`): either a text block or a media data-URL block. -/
inductive ContentBlock
  | text (text : String)
  | image_url (image_url : String)
  deriving DecidableEq

/-- The char length the builder accounts for a block
(`block.type === 'text' ? block.text.length : block.image_url.length`). -/
def blockSize : ContentBlock → Nat
  | .text t => t.length
  | .image_url u => u.length

/-- A knowledge item handed to the per-attachment resolution
(`ChatHubAgentKnowledgeItem`): either a vector-store embedding entry or an
inline file with binary data. -/
inductive KnowledgeItem
  | embedding (fileName : String)
  | file (binaryData : BinaryData)
  deriving DecidableEq

/-- Environment of the attachment resolution: byte access and data-URL access
of the attachment store (both may fail), the mime-type modality classifier of
the models service, all consumed as black boxes. -/
structure AttachmentEnv where
  getAsBuffer : BinaryData → Except String String
  getDataUrl : BinaryData → Except String String
  getMimeTypeModality : String → String

/-- `isTextFile(mimeType)`.  `mimeType.startsWith('text/')` is embedded as the
equivalent character-list comparison. -/
def isTextFile (mimeType : String) : Bool :=
  "text/".data.isPrefixOf mimeType.data ||
  mimeType == "application/json" ||
  mimeType == "application/xml" ||
  mimeType == "application/csv" ||
  mimeType == "application/x-yaml" ||
  mimeType == "application/yaml"

/-- Internal outcome of the `try` body of `buildContentBlockForAttachment`:
either blocks, one of the two class-scoped control-flow signals
(`TotalFileSizeExceededError`, `UnsupportedMimeTypeError`), or a foreign error
raised by a collaborator (rethrown by the `catch`). -/
inductive AttachmentOutcome
  | blocks (blocks : List ContentBlock)
  | totalFileSizeExceeded
  | unsupportedMimeType
  | fetchFailure (e : String)

/-- The file name interpolated into the `catch` placeholders
(`file.type === 'embedding' ? file.fileName : (file.binaryData.fileName ?? 'attachment')`). -/
def catchFileName : KnowledgeItem → String
  | .embedding fn => fn
  | .file att => att.fileName.getD "attachment"

/-- The `try` body of `buildContentBlockForAttachment`: entry size check,
embedding short-circuit, textual inlining, modality check and media block. -/
def buildContentBlockBody (env : AttachmentEnv) (file : KnowledgeItem)
    (currentTotalSize maxTotalPayloadSize : Nat) (modelMetadata : ModelMetadata)
    (pfx : String) : AttachmentOutcome :=
  if currentTotalSize ≥ maxTotalPayloadSize then .totalFileSizeExceeded
  else
    match file with
    | .embedding fn =>
      .blocks [.text (pfx ++ ": " ++ fn ++
        "\nContent: \n(Use vector store question tool to query this document)")]
    | .file attachment =>
      if isTextFile attachment.mimeType then
        match env.getAsBuffer attachment with
        | .error e => .fetchFailure e
        | .ok content =>
          if currentTotalSize + content.length > maxTotalPayloadSize then
            .totalFileSizeExceeded
          else
            .blocks [.text (pfx ++ ": " ++ attachment.fileName.getD "attachment" ++
              "\nContent: \n" ++ content)]
      else
        if modelMetadata.inputModalities.contains
            (env.getMimeTypeModality attachment.mimeType) then
          match env.getDataUrl attachment with
          | .error e => .fetchFailure e
          | .ok url =>
            if currentTotalSize + url.length > maxTotalPayloadSize then
              .totalFileSizeExceeded
            else
              .blocks [.text (pfx ++ ": " ++ attachment.fileName.getD "attachment"),
                .image_url url]
        else .unsupportedMimeType

/-- `buildContentBlockForAttachment(file, currentTotalSize, maxTotalPayloadSize,
modelMetadata, prefix)`.  The two locally-declared error classes are modelled
as `AttachmentOutcome` variants; the trailing `catch` converts them into the
two text placeholders and rethrows anything else (`throw e`). -/
def buildContentBlockForAttachment (env : AttachmentEnv) (file : KnowledgeItem)
    (currentTotalSize maxTotalPayloadSize : Nat) (modelMetadata : ModelMetadata)
    (pfx : String) : Except String (List ContentBlock) :=
  match buildContentBlockBody env file currentTotalSize maxTotalPayloadSize modelMetadata
    pfx with
  | .blocks bs => .ok bs
  | .totalFileSizeExceeded =>
    .ok [.text (pfx ++ ": " ++ catchFileName file ++ "\n(Content omitted due to size limit)")]
  | .unsupportedMimeType =>
    .ok [.text (pfx ++ ": " ++ catchFileName file ++ "\n(Unsupported file type)")]
  | .fetchFailure e => .error e

/-- The hardcoded payload ceiling: `20 * 1024 * 1024 * 0.9` (exact). -/
def maxTotalPayloadSize : Nat := 20 * 1024 * 1024 * 9 / 10

/-- The `typeMap` lookup with its `|| 'system'` fallback. -/
def typeMap (t : String) : String :=
  if t = "human" then "user"
  else if t = "ai" then "ai"
  else if t = "system" then "system"
  else "system"

/-- The message payload of a `MessageRecord`: a plain string or content
blocks. -/
inductive RecordContent
  | str (s : String)
  | blocks (blocks : List ContentBlock)
  deriving DecidableEq

/-- A role-tagged entry of the assembled conversation (`MessageRecord`). -/
structure MessageRecord where
  type : String
  message : RecordContent
  hideFromUI : Bool
  deriving DecidableEq

/-- Cumulative char size of one emitted entry. -/
def recordSize : MessageRecord → Nat
  | ⟨_, .str s, _⟩ => s.length
  | ⟨_, .blocks bs, _⟩ => (bs.map blockSize).sum

/-- The inner attachment loop of `buildConversationHistory`: resolve each
attachment of one message, appending the produced blocks and accounting their
sizes into the running total. -/
def appendAttachmentBlocks (env : AttachmentEnv) (meta : ModelMetadata) :
    List BinaryData → List ContentBlock → Nat → Except String (List ContentBlock × Nat)
  | [], blocks, size => .ok (blocks, size)
  | attachment :: rest, blocks, size =>
    match buildContentBlockForAttachment env (.file attachment) size maxTotalPayloadSize
        meta "File" with
    | .error e => .error e
    | .ok attachmentBlocks =>
      appendAttachmentBlocks env meta rest (blocks ++ attachmentBlocks)
        (size + (attachmentBlocks.map blockSize).sum)

/-- The context-file loop of `buildConversationHistory`: resolve every context
file with its positional label, collecting blocks and sizes. -/
def appendContextBlocks (env : AttachmentEnv) (meta : ModelMetadata) (total : Nat) :
    List KnowledgeItem → Nat → List ContentBlock → Nat → Except String (List ContentBlock × Nat)
  | [], _, blocks, size => .ok (blocks, size)
  | file :: rest, i, blocks, size =>
    match buildContentBlockForAttachment env file size maxTotalPayloadSize meta
        ("Context file (" ++ toString (i + 1) ++ " of " ++ toString total ++ ")") with
    | .error e => .error e
    | .ok bs =>
      appendContextBlocks env meta total rest (i + 1) (blocks ++ bs)
        (size + (bs.map blockSize).sum)

/-- The per-message loop of `buildConversationHistory` over the reversed
(newest-first) history: skip empty contents, count the text length, then emit a
plain text entry or a multi-block entry with resolved attachments. -/
def processHistoryMessages (env : AttachmentEnv) (meta : ModelMetadata) :
    List ChatHubMessage → List MessageRecord → Nat → Except String (List MessageRecord × Nat)
  | [], acc, size => .ok (acc, size)
  | m :: rest, acc, size =>
    if m.content.length = 0 then processHistoryMessages env meta rest acc size
    else
      let type := typeMap m.type
      let size := size + m.content.length
      if m.attachments.isEmpty then
        processHistoryMessages env meta rest (acc ++ [⟨type, .str m.content, false⟩]) size
      else
        match appendAttachmentBlocks env meta m.attachments [.text m.content] size with
        | .error e => .error e
        | .ok (blocks, size2) =>
          processHistoryMessages env meta rest (acc ++ [⟨type, .blocks blocks, false⟩]) size2

/-- `buildConversationHistory(history, model, contextFiles)`.  The model's
metadata (`getModelMetadata(model.provider, model.model)`, an external constant
table) is passed directly.  The history is traversed newest-first, context-file
blocks are appended as one hidden user entry, and the result is reversed back
to chronological order. -/
def buildConversationHistory (env : AttachmentEnv) (history : List ChatHubMessage)
    (meta : ModelMetadata) (contextFiles : List KnowledgeItem) :
    Except String (List MessageRecord) :=
  match processHistoryMessages env meta history.reverse [] 0 with
  | .error e => .error e
  | .ok (messageValues, size) =>
    match appendContextBlocks env meta contextFiles.length contextFiles 0 [] size with
    | .error e => .error e
    | .ok (contextFileBlocks, _) =>
      let messageValues :=
        if contextFileBlocks.length > 0 then
          messageValues ++ [⟨"user", .blocks contextFileBlocks, true⟩]
        else messageValues
      .ok messageValues.reverse

/-! ## Service entry points

The stateful entry points are embedded as pure functions over a `ChatEnv` of
collaborator outcomes.  Every call the service issues to a write-capable or
external collaborator (repositories, attachment store, stream service,
execution service) is recorded as a `ChatEvent`, so frame properties ("no row
created", "nothing deleted") are statements about the produced event trace. -/

/-- The arguments of `messageRepository.createHumanMessage` that the claims
talk about: message text, attachment list, parent link, revision root. -/
structure CreateMessageArgs where
  content : String
  attachments : List BinaryData
  previousMessageId : Option String
  revisionOfMessageId : Option String
  deriving DecidableEq

/-- The partial update handed to `messageRepository.updateChatMessage`. -/
structure MessageUpdate where
  content : Option String
  status : Option String
  deriving DecidableEq

/-- The conversation turn input (`ChatInput`): message text plus stored
attachments. -/
structure ChatInput where
  message : String
  attachments : List BinaryData
  deriving DecidableEq

/-- The prepared reply workflow (`PreparedChatWorkflow`), reduced to the field
the service reads (`responseMode`). -/
structure PreparedChatWorkflow where
  responseMode : String
  deriving DecidableEq

/-- The model chosen for a turn (`ChatHubConversationModel`), reduced to its
provider discriminator. -/
structure ConversationModel where
  provider : String
  deriving DecidableEq

/-- One collaborator call issued by a service entry point. -/
inductive ChatEvent
  | storedAttachments (sessionId messageId : String) (stored : List BinaryData)
  | createdHumanMessage (args : CreateMessageArgs)
  | updatedChatMessage (messageId : String) (upd : MessageUpdate)
  | preparedReply (history : List ChatHubMessage) (input : ChatInput)
  | deletedAttachments (atts : List BinaryData)
  | warnedCleanup (count : Nat)
  | broadcastHumanMessage (sessionId messageId : String)
  | broadcastMessageEdit (sessionId editId messageId : String)
  | resumedExecution (executionId : String)
  | executedWorkflow (sessionId : String) (previousMessageId : String)
      (retryOfMessageId : Option String) (originalPreviousMessageId : Option String)
  | stoppedExecution (executionId workflowId : String)
  | generatedTitle (sessionId : String)
  deriving DecidableEq

/-- Collaborator outcomes consumed by the service entry points. -/
structure ChatEnv where
  getSession : String → String → Option ChatHubSession
  createChatSession : String → String → ConversationModel → Except String ChatHubSession
  getMessage : String → String → Option ChatHubMessage
  sessionExists : String → String → Bool
  storeMessageAttachments : String → String → List String → Except String (List BinaryData)
  deleteAttachments : List BinaryData → Except String Unit
  createHumanMessage : CreateMessageArgs → Except String Unit
  updateChatMessage : String → MessageUpdate → Except String Unit
  prepareReplyWorkflow : List ChatHubMessage → ChatInput → Except String PreparedChatWorkflow
  findExecution : String → Option ExecutionEntity
  stopExecution : String → String → Except String Unit

/-- `sendHumanMessage` payload (`HumanMessagePayload`), reduced to the fields
the orchestration reads. -/
structure HumanMessagePayload where
  sessionId : String
  messageId : String
  message : String
  model : ConversationModel
  previousMessageId : Option String
  attachments : List String
  deriving DecidableEq

/-- `editMessage` payload (`EditMessagePayload`). -/
structure EditMessagePayload where
  sessionId : String
  editId : String
  messageId : String
  message : String
  model : ConversationModel
  keepAttachmentIndices : List Nat
  newAttachments : List String
  deriving DecidableEq

/-- `regenerateAIMessage` payload (`RegenerateMessagePayload`). -/
structure RegenerateMessagePayload where
  sessionId : String
  retryId : String
  model : ConversationModel
  deriving DecidableEq

/-- Result and trace of a transactional phase, together with the attachments
assigned to the outer cleanup variable before any failure
(`processedAttachments` / `newStoredAttachments`). -/
structure TxOutcome (α : Type) where
  result : Except String α
  events : List ChatEvent
  stored : List BinaryData

/-- The `catch` block shared by `sendHumanMessage` and `editMessage`: delete
the attachments stored before the failure; a deletion failure is only logged
(`errorReporter.warn`), never raised. -/
def attachmentCleanup (env : ChatEnv) (stored : List BinaryData) : List ChatEvent :=
  if stored.length > 0 then
    match env.deleteAttachments stored with
    | .ok _ => [.deletedAttachments stored]
    | .error _ => [.deletedAttachments stored, .warnedCleanup stored.length]
  else []

/-- The transaction body of `sendHumanMessage`: resolve or create the session,
validate `previousMessageId` (`ensurePreviousMessage`), build the history,
store the attachments, create the human message, prepare the reply workflow. -/
def sendHumanMessageTx (env : ChatEnv) (userId : String) (p : HumanMessagePayload) :
    TxOutcome (PreparedChatWorkflow × Option ChatHubMessage) :=
  let sessionRes : Except String ChatHubSession :=
    match env.getSession userId p.sessionId with
    | some s => .ok s
    | none => env.createChatSession userId p.sessionId p.model
  match sessionRes with
  | .error e => ⟨.error e, [], []⟩
  | .ok session =>
    let prevRes : Except String (Option ChatHubMessage) :=
      match p.previousMessageId with
      | none => .ok none
      | some pid =>
        match env.getMessage p.sessionId pid with
        | some m => .ok (some m)
        | none => .error "The previous message does not exist in the session"
    match prevRes with
    | .error e => ⟨.error e, [], []⟩
    | .ok previousMessage =>
      let history := buildMessageHistory (messagesById session.messages) p.previousMessageId
      match env.storeMessageAttachments p.sessionId p.messageId p.attachments with
      | .error e => ⟨.error e, [], []⟩
      | .ok processedAttachments =>
        let evs := [ChatEvent.storedAttachments p.sessionId p.messageId processedAttachments]
        let createArgs : CreateMessageArgs :=
          ⟨p.message, processedAttachments, p.previousMessageId, none⟩
        let evs := evs ++ [ChatEvent.createdHumanMessage createArgs]
        match env.createHumanMessage createArgs with
        | .error e => ⟨.error e, evs, processedAttachments⟩
        | .ok _ =>
          let input : ChatInput := ⟨p.message, processedAttachments⟩
          let evs := evs ++ [ChatEvent.preparedReply history input]
          match env.prepareReplyWorkflow history input with
          | .error e => ⟨.error e, evs, processedAttachments⟩
          | .ok replyWorkflow => ⟨.ok (replyWorkflow, previousMessage), evs, processedAttachments⟩

/-- The post-commit tail of `executeChatWorkflowWithCleanup`: launch the
execution and, only for a first human message with non-empty text, attempt
best-effort title generation. -/
def executeWithCleanupEvents (sessionId previousMessageId : String)
    (retryOfMessageId : Option String) (originalPreviousMessageId : Option String)
    (humanMessage : String) : List ChatEvent :=
  [ChatEvent.executedWorkflow sessionId previousMessageId retryOfMessageId
    originalPreviousMessageId] ++
  (if originalPreviousMessageId = none ∧ humanMessage ≠ "" then
    [ChatEvent.generatedTitle sessionId]
  else [])

/-- `sendHumanMessage`: run the transaction, on failure delete stored
attachments (best effort) and rethrow the original error; on success broadcast
the human message, then either resume a waiting execution of the previous AI
message (hosted-workflow sessions in `responseNodes` mode) or start a fresh
execution. -/
def sendHumanMessage (env : ChatEnv) (userId : String) (p : HumanMessagePayload) :
    Except String Unit × List ChatEvent :=
  let tx := sendHumanMessageTx env userId p
  match tx.result with
  | .error e => (.error e, tx.events ++ attachmentCleanup env tx.stored)
  | .ok (workflow, previousMessage) =>
    let evs := tx.events ++ [ChatEvent.broadcastHumanMessage p.sessionId p.messageId]
    let resumeTarget : Option (ChatHubMessage × String) :=
      match previousMessage with
      | some prev =>
        match prev.executionId with
        | some execId =>
          if p.model.provider = "n8n" ∧ workflow.responseMode = "responseNodes" ∧
              prev.status = some "waiting" then
            some (prev, execId)
          else none
        | none => none
      | none => none
    match resumeTarget with
    | some (prev, execId) =>
      match env.findExecution execId with
      | none => (.error "Chat session has expired.", evs)
      | some execution =>
        let upd : MessageUpdate := ⟨none, some "success"⟩
        let evs := evs ++ [ChatEvent.updatedChatMessage prev.id upd]
        match env.updateChatMessage prev.id upd with
        | .error e => (.error e, evs)
        | .ok _ => (.ok (), evs ++ [ChatEvent.resumedExecution execution.id])
    | none =>
      (.ok (), evs ++ executeWithCleanupEvents p.sessionId p.messageId none
        p.previousMessageId p.message)

/-- The transaction body of `editMessage`: load session and target message,
then either reject (hosted-workflow AI edit), replace an AI message's content
in place, or create a revision of a human message and prepare a reply. -/
def editMessageTx (env : ChatEnv) (userId : String) (p : EditMessagePayload) :
    TxOutcome (Option PreparedChatWorkflow × List BinaryData) :=
  match env.getSession userId p.sessionId with
  | none => ⟨.error "Chat session not found", [], []⟩
  | some session =>
    match env.getMessage session.id p.editId with
    | none => ⟨.error "Chat message not found", [], []⟩
    | some messageToEdit =>
      if messageToEdit.type = "ai" then
        if p.model.provider = "n8n" then
          ⟨.error "Editing AI messages with n8n workflow agents is not supported", [], []⟩
        else
          let upd : MessageUpdate := ⟨some p.message, none⟩
          let evs := [ChatEvent.updatedChatMessage p.editId upd]
          match env.updateChatMessage p.editId upd with
          | .error e => ⟨.error e, evs, []⟩
          | .ok _ => ⟨.ok (none, []), evs, []⟩
      else if messageToEdit.type = "human" then
        let history :=
          buildMessageHistory (messagesById session.messages) messageToEdit.previousMessageId
        let revisionOfMessageId := messageToEdit.revisionOfMessageId.getD messageToEdit.id
        let originalAttachments := messageToEdit.attachments
        let keptAttachments :=
          p.keepAttachmentIndices.flatMap (fun i => originalAttachments[i]?.toList)
        let storeRes : Except String (List BinaryData) :=
          if p.newAttachments.length > 0 then
            env.storeMessageAttachments p.sessionId p.messageId p.newAttachments
          else .ok []
        match storeRes with
        | .error e => ⟨.error e, [], []⟩
        | .ok newStored =>
          let evs :=
            if p.newAttachments.length > 0 then
              [ChatEvent.storedAttachments p.sessionId p.messageId newStored]
            else []
          let attachments := keptAttachments ++ newStored
          let createArgs : CreateMessageArgs :=
            ⟨p.message, attachments, messageToEdit.previousMessageId, some revisionOfMessageId⟩
          let evs := evs ++ [ChatEvent.createdHumanMessage createArgs]
          match env.createHumanMessage createArgs with
          | .error e => ⟨.error e, evs, newStored⟩
          | .ok _ =>
            let input : ChatInput := ⟨p.message, attachments⟩
            let evs := evs ++ [ChatEvent.preparedReply history input]
            match env.prepareReplyWorkflow history input with
            | .error e => ⟨.error e, evs, newStored⟩
            | .ok workflow => ⟨.ok (some workflow, attachments), evs, newStored⟩
      else ⟨.error "Only human and AI messages can be edited", [], []⟩

/-- `editMessage`: run the transaction, on failure delete newly stored
attachments (best effort) and rethrow; an AI edit returns without broadcast or
execution; a human edit broadcasts the revision and starts an execution. -/
def editMessage (env : ChatEnv) (userId : String) (p : EditMessagePayload) :
    Except String Unit × List ChatEvent :=
  let tx := editMessageTx env userId p
  match tx.result with
  | .error e => (.error e, tx.events ++ attachmentCleanup env tx.stored)
  | .ok (none, _) => (.ok (), tx.events)
  | .ok (some _, _) =>
    let evs := tx.events ++ [ChatEvent.broadcastMessageEdit p.sessionId p.editId p.messageId]
    (.ok (), evs ++ executeWithCleanupEvents p.sessionId p.messageId none none "")

/-- `regenerateAIMessage`: load session and target AI message, rebuild its
backward history, truncate it right after the most recent human message
(`filter(human).pop()`, `indexOf`, `splice`), and re-prepare a reply from that
human message's content and attachments; `retryOfMessageId` is the target's
own retry root or the target's id. -/
def regenerateAIMessage (env : ChatEnv) (userId : String) (p : RegenerateMessagePayload) :
    Except String Unit × List ChatEvent :=
  match env.getSession userId p.sessionId with
  | none => (.error "Chat session not found", [])
  | some session =>
    match env.getMessage session.id p.retryId with
    | none => (.error "Chat message not found", [])
    | some messageToRetry =>
      if messageToRetry.type = "ai" then
        let history :=
          buildMessageHistory (messagesById session.messages) messageToRetry.previousMessageId
        match (history.filter (fun m => m.type == "human")).getLast? with
        | none => (.error "No human message found to base the retry on", [])
        | some lastHumanMessage =>
          let history2 :=
            match history.findIdx? (fun m => m == lastHumanMessage) with
            | some i => history.take (i + 1)
            | none => history
          let retryOfMessageId := messageToRetry.retryOfMessageId.getD messageToRetry.id
          let input : ChatInput := ⟨lastHumanMessage.content, lastHumanMessage.attachments⟩
          let evs := [ChatEvent.preparedReply history2 input]
          match env.prepareReplyWorkflow history2 input with
          | .error e => (.error e, evs)
          | .ok _ =>
            (.ok (), evs ++ executeWithCleanupEvents p.sessionId lastHumanMessage.id
              (some retryOfMessageId) none "")
      else (.error "Can only retry AI messages", [])

/-- `stopGeneration`: only an AI message with a loaded execution and status
exactly `running` can be stopped; then the execution receives a stop call and
the message is marked `cancelled`. -/
def stopGeneration (env : ChatEnv) (userId sessionId messageId : String) :
    Except String Unit × List ChatEvent :=
  if env.sessionExists userId sessionId then
    match env.getMessage sessionId messageId with
    | none => (.error "Chat message not found", [])
    | some message =>
      if message.type ≠ "ai" then (.error "Can only stop AI messages", [])
      else
        match message.executionId, message.execution with
        | some _, some execution =>
          if message.status ≠ some "running" then
            (.error "Can only stop messages that are currently running", [])
          else
            let evs := [ChatEvent.stoppedExecution execution.id execution.workflowId]
            match env.stopExecution execution.id execution.workflowId with
            | .error e => (.error e, evs)
            | .ok _ =>
              let upd : MessageUpdate := ⟨none, some "cancelled"⟩
              let evs := evs ++ [ChatEvent.updatedChatMessage messageId upd]
              match env.updateChatMessage messageId upd with
              | .error e => (.error e, evs)
              | .ok _ => (.ok (), evs)
        | _, _ => (.error "Message is not associated with a workflow execution", [])
  else (.error "Chat session not found", [])

/-! ## Streaming reconnect and conversation listing -/

/-- A buffered stream chunk. -/
structure StreamChunk where
  sequenceNumber : Int
  content : String
  deriving DecidableEq

/-- The stream coordinator surface consumed by `reconnectToStream`. -/
structure StreamEnv where
  hasActiveStream : String → Bool
  getCurrentMessageId : String → Option String
  getPendingChunks : String → Int → List StreamChunk

/-- The reconnect payload. -/
structure ReconnectResult where
  hasActiveStream : Bool
  currentMessageId : Option String
  pendingChunks : List StreamChunk
  lastSequenceNumber : Int
  deriving DecidableEq

/-- `reconnectToStream(sessionId, lastReceivedSequence)`:
`lastSequenceNumber` is the last pending chunk's sequence number
(`pendingChunks[pendingChunks.length - 1].sequenceNumber`) or
`lastReceivedSequence` when no chunks are pending. -/
def reconnectToStream (env : StreamEnv) (sessionId : String) (lastReceivedSequence : Int) :
    ReconnectResult :=
  let pendingChunks := env.getPendingChunks sessionId lastReceivedSequence
  { hasActiveStream := env.hasActiveStream sessionId
    currentMessageId := env.getCurrentMessageId sessionId
    pendingChunks := pendingChunks
    lastSequenceNumber :=
      match pendingChunks.getLast? with
      | some c => c.sequenceNumber
      | none => lastReceivedSequence }

/-- A conversation summary DTO (`ChatHubSessionDto`), reduced to its id. -/
structure ChatHubSessionDto where
  id : String
  deriving DecidableEq

/-- The collaborators of `getConversations`: the cursor-paged session query
and the entity-to-DTO conversion. -/
structure ConversationsEnv where
  getManyByUserId : String → Nat → Option String → List ChatHubSession
  convertSessionEntityToDto : ChatHubSession → ChatHubSessionDto

/-- The paged conversations response. -/
structure ConversationsResponse where
  data : List ChatHubSessionDto
  nextCursor : Option String
  hasMore : Bool
  deriving DecidableEq

/-- `getConversations(userId, limit, cursor)`: fetch `limit + 1` sessions,
report `hasMore` when more than `limit` were found, truncate to `limit`, and
use the last returned session's id as the next cursor. -/
def getConversations (env : ConversationsEnv) (userId : String) (limit : Nat)
    (cursor : Option String) : ConversationsResponse :=
  let sessions := env.getManyByUserId userId (limit + 1) cursor
  let hasMore := decide (limit < sessions.length)
  let data := if limit < sessions.length then sessions.take limit else sessions
  let nextCursor :=
    if limit < sessions.length then (data.getLast?).map (fun s => s.id) else none
  { data := data.map env.convertSessionEntityToDto
    nextCursor := nextCursor
    hasMore := hasMore }


/-! ## Concrete instances used by witnesses and counterexamples -/

/-- Demo human message `A` (root). -/
def demoMsgA : ChatHubMessage :=
  ⟨"A", "human", "hi", none, none, none, none, none, [], none⟩

/-- Demo AI message `B`, child of `A`. -/
def demoMsgB : ChatHubMessage :=
  ⟨"B", "ai", "hello", some "A", none, none, some "success", none, [], none⟩

/-- Demo id-keyed mapping of the two messages. -/
def demoMap : List (String × ChatHubMessage) := [("A", demoMsgA), ("B", demoMsgB)]

/-- Demo session holding the two messages. -/
def demoSession : ChatHubSession := ⟨"s1", "u1", "openai", [demoMsgA, demoMsgB]⟩

/-- Demo text attachment reference. -/
def demoTextAttachment : BinaryData := ⟨some "a1", some "notes.txt", "text/plain"⟩

/-- Demo image attachment reference. -/
def demoImgAttachment : BinaryData := ⟨some "a2", some "pic.png", "image/png"⟩

/-- Attachment environment whose fetches fail with a foreign error. -/
def failFetchEnv : AttachmentEnv :=
  ⟨fun _ => .error "fetch failed", fun _ => .error "fetch failed", fun _ => "image"⟩

/-- Attachment environment with small successful fetches. -/
def okFetchEnv : AttachmentEnv :=
  ⟨fun _ => .ok "DATA", fun _ => .ok "URL", fun _ => "image"⟩

/-- Model metadata accepting images. -/
def demoMeta : ModelMetadata := ⟨["image"]⟩

/-- A text one char longer than the payload ceiling. -/
def hugeText : String := String.mk (List.replicate (maxTotalPayloadSize + 1) 'a')

/-- A human message whose text alone exceeds the payload ceiling. -/
def bigMsg : ChatHubMessage :=
  ⟨"m1", "human", hugeText, none, none, none, none, none, [], none⟩

/-- Base collaborator environment for the service witnesses: lookups find the
demo data and every call succeeds. -/
def baseEnv : ChatEnv where
  getSession := fun _ _ => some demoSession
  createChatSession := fun _ _ _ => .error "no session creation in demo"
  getMessage := fun _ mid =>
    if mid = "A" then some demoMsgA else if mid = "B" then some demoMsgB else none
  sessionExists := fun _ _ => true
  storeMessageAttachments := fun _ _ files =>
    .ok (files.map (fun f => ⟨some f, some f, "image/png"⟩))
  deleteAttachments := fun _ => .ok ()
  createHumanMessage := fun _ => .ok ()
  updateChatMessage := fun _ _ => .ok ()
  prepareReplyWorkflow := fun _ _ => .ok ⟨"streaming"⟩
  findExecution := fun _ => none
  stopExecution := fun _ _ => .ok ()

/-- Environment where message insertion fails and attachment deletion also
fails: exercises the compensation path of C4. -/
def failingCreateEnv : ChatEnv :=
  { baseEnv with
    createHumanMessage := fun _ => .error "insert failed"
    deleteAttachments := fun _ => .error "delete failed" }

/-- A loaded execution row for stop-generation tests. -/
def runningExecution : ExecutionEntity := ⟨"e1", "w1"⟩

/-- A running AI message with a loaded execution. -/
def runningAiMsg : ChatHubMessage :=
  ⟨"R", "ai", "generating", some "A", none, none, some "running", some "e1", [],
    some runningExecution⟩

/-- Environment resolving the running AI message. -/
def stopEnv : ChatEnv :=
  { baseEnv with getMessage := fun _ mid => if mid = "R" then some runningAiMsg else none }

/-- A human message carrying two attachments and an existing revision root. -/
def demoMsgH : ChatHubMessage :=
  ⟨"H", "human", "files here", none, none, some "H0", none, none,
    [demoTextAttachment, demoImgAttachment], none⟩

/-- Session holding the attachment-bearing human message. -/
def editSession : ChatHubSession := ⟨"s1", "u1", "openai", [demoMsgH]⟩

/-- Environment resolving the attachment-bearing human message. -/
def editEnv : ChatEnv :=
  { baseEnv with
    getSession := fun _ _ => some editSession
    getMessage := fun _ mid => if mid = "H" then some demoMsgH else none }

/-- Session bound to the hosted-workflow provider, while the edit payload
below carries a base-model provider. -/
def n8nSession : ChatHubSession := ⟨"s2", "u1", "n8n", [demoMsgA, demoMsgB]⟩

/-- Environment resolving the hosted-workflow session. -/
def n8nSessionEnv : ChatEnv := { baseEnv with getSession := fun _ _ => some n8nSession }

/-- Send payload referencing the AI message `B` as parent, with one upload. -/
def demoHumanPayload : HumanMessagePayload :=
  ⟨"s1", "m2", "hi there", ⟨"openai"⟩, some "B", ["f1"]⟩

/-- AI-edit payload with a base-model provider. -/
def demoEditAiPayload : EditMessagePayload :=
  ⟨"s1", "B", "m3", "edited text", ⟨"openai"⟩, [], []⟩

/-- AI-edit payload with the hosted-workflow provider. -/
def demoEditAiPayloadN8n : EditMessagePayload :=
  ⟨"s1", "B", "m3", "edited text", ⟨"n8n"⟩, [], []⟩

/-- Human-edit payload keeping the original attachments in swapped order. -/
def demoEditHumanPayload : EditMessagePayload :=
  ⟨"s1", "H", "m9", "new text", ⟨"openai"⟩, [1, 0], []⟩

/-- Edit payload that stores one new attachment but fails at insertion. -/
def demoEditHumanPayloadUpload : EditMessagePayload :=
  ⟨"s1", "H", "m9", "new text", ⟨"openai"⟩, [0], ["g1"]⟩

/-- Regenerate payload targeting the AI message `B`. -/
def demoRegenPayload : RegenerateMessagePayload := ⟨"s1", "B", ⟨"openai"⟩⟩

/-- Stream environment with two buffered chunks. -/
def demoStreamEnv : StreamEnv where
  hasActiveStream := fun _ => true
  getCurrentMessageId := fun _ => some "B"
  getPendingChunks := fun _ since =>
    if since < 1 then [⟨1, "He"⟩, ⟨2, "llo"⟩] else if since < 2 then [⟨2, "llo"⟩] else []

/-- Conversation-list environment returning three sessions. -/
def demoConversationsEnv : ConversationsEnv where
  getManyByUserId := fun _ n _ => (List.range n).map (fun i => ⟨toString i, "u1", "openai", []⟩)
  convertSessionEntityToDto := fun s => ⟨s.id⟩

/-! ## General lemmas -/

/-- A successful association-list lookup means the key occurs in the list. -/
theorem lookup_mem_keys {β : Type} {l : List (String × β)} {a : String} {b : β}
    (hlk : l.lookup a = some b) : a ∈ l.map Prod.fst := by
  induction l with
  | nil => simp [List.lookup] at hlk
  | cons p t ih =>
    rw [List.lookup] at hlk
    by_cases hpc : a == p.1
    · simp only [List.map_cons, List.mem_cons]
      exact Or.inl (eq_of_beq hpc)
    · rw [Bool.not_eq_true] at hpc
      simp only [hpc] at hlk
      exact List.mem_cons_of_mem _ (ih hlk)


/-- A successful association-list lookup returns a stored pair. -/
theorem lookup_mem_pair {β : Type} {l : List (String × β)} {a : String} {b : β}
    (hlk : l.lookup a = some b) : (a, b) ∈ l := by
  induction l with
  | nil => simp [List.lookup] at hlk
  | cons p t ih =>
    rw [List.lookup] at hlk
    by_cases hpc : a == p.1
    · simp only [hpc] at hlk
      have hb : p.2 = b := by
        exact Option.some.inj hlk
      have ha : a = p.1 := eq_of_beq hpc
      apply List.mem_cons.mpr
      left
      rw [ha, ← hb]
    · rw [Bool.not_eq_true] at hpc
      simp only [hpc] at hlk
      exact List.mem_cons_of_mem _ (ih hlk)

/-- Unfolding: walking from a null link returns the accumulator. -/
theorem walkHistory_none (messages : List (String × ChatHubMessage)) (path : List String) :
    walkHistory messages none path = path := by
  rw [walkHistory]

/-- Unfolding: an already-collected id stops the walk. -/
theorem walkHistory_some_mem (messages : List (String × ChatHubMessage)) {current : String}
    {path : List String} (h : current ∈ path) :
    walkHistory messages (some current) path = path := by
  rw [walkHistory]
  simp [h]

/-- Unfolding: a fresh id is prepended and the walk continues with its parent. -/
theorem walkHistory_some_not_mem (messages : List (String × ChatHubMessage)) {current : String}
    {path : List String} (h : current ∉ path) :
    walkHistory messages (some current) path =
      walkHistory messages ((messages.lookup current).bind (fun m => m.previousMessageId))
        (current :: path) := by
  rw [walkHistory]
  simp [h]


/-- Invariants of the backward walk: the collected ids are distinct, linked
consecutively by `prevLink` (oldest first), extend the initial accumulator, and
the walk stops only on a null/dangling parent or an already-collected id. -/
theorem walkHistory_spec (messages : List (String × ChatHubMessage)) :
    ∀ (ocur : Option String) (path : List String),
      path.Nodup →
      List.Chain' (prevLink messages) path →
      (∀ h, path.head? = some h →
        (messages.lookup h).bind (fun m => m.previousMessageId) = ocur) →
      (walkHistory messages ocur path).Nodup ∧
      List.Chain' (prevLink messages) (walkHistory messages ocur path) ∧
      path <:+ walkHistory messages ocur path ∧
      (∀ h, (walkHistory messages ocur path).head? = some h →
        (messages.lookup h).bind (fun m => m.previousMessageId) = none ∨
        ∃ c, (messages.lookup h).bind (fun m => m.previousMessageId) = some c ∧
          c ∈ walkHistory messages ocur path) := by
  intro ocur path
  induction ocur, path using walkHistory.induct messages with
  | case1 path =>
    intro hnd hch hhead
    rw [walkHistory_none]
    refine ⟨hnd, hch, List.suffix_refl path, ?_⟩
    intro h hh
    exact Or.inl (hhead h hh)
  | case2 path current hcur =>
    intro hnd hch hhead
    rw [walkHistory_some_mem messages hcur]
    refine ⟨hnd, hch, List.suffix_refl path, ?_⟩
    intro h hh
    exact Or.inr ⟨current, hhead h hh, hcur⟩
  | case3 path current hcur ih =>
    intro hnd hch hhead
    rw [walkHistory_some_not_mem messages hcur]
    have hnd' : (current :: path).Nodup := List.nodup_cons.mpr ⟨hcur, hnd⟩
    have hch' : List.Chain' (prevLink messages) (current :: path) := by
      rw [List.chain'_cons']
      refine ⟨?_, hch⟩
      intro y hy
      exact hhead y hy
    have hhead' : ∀ h, (current :: path).head? = some h →
        (messages.lookup h).bind (fun m => m.previousMessageId) =
          (messages.lookup current).bind (fun m => m.previousMessageId) := by
      intro h hh
      rw [List.head?_cons] at hh
      rw [← Option.some.inj hh]
    have hres := ih hnd' hch' hhead'
    refine ⟨hres.1, hres.2.1, ?_, hres.2.2.2⟩
    exact List.IsSuffix.trans (List.suffix_cons current path) hres.2.2.1

/-- Top-level run of the walk from a terminal id: distinct ids, consecutive
parent links, the terminal id last, and a stop condition at the oldest id. -/
theorem walkHistory_run (messages : List (String × ChatHubMessage)) (lid : String) :
    (walkHistory messages (some lid) []).Nodup ∧
    List.Chain' (prevLink messages) (walkHistory messages (some lid) []) ∧
    (walkHistory messages (some lid) []).getLast? = some lid ∧
    (∀ h, (walkHistory messages (some lid) []).head? = some h →
      (messages.lookup h).bind (fun m => m.previousMessageId) = none ∨
      ∃ c, (messages.lookup h).bind (fun m => m.previousMessageId) = some c ∧
        c ∈ walkHistory messages (some lid) []) := by
  have hstep : walkHistory messages (some lid) [] =
      walkHistory messages ((messages.lookup lid).bind (fun m => m.previousMessageId)) [lid] :=
    walkHistory_some_not_mem messages (by simp)
  have hspec := walkHistory_spec messages
    ((messages.lookup lid).bind (fun m => m.previousMessageId)) [lid]
    (by simp) (List.chain'_singleton lid)
    (by
      intro h hh
      simp only [List.head?_cons] at hh
      rw [← Option.some.inj hh])
  rw [hstep]
  refine ⟨hspec.1, hspec.2.1, ?_, hspec.2.2.2⟩
  rcases hspec.2.2.1 with ⟨t, ht⟩
  rw [← ht]
  exact List.getLast?_concat t

/-- In a `prevLink`-chained id list, every id after the first resolves in the
mapping. -/
theorem chain'_tail_lookup (messages : List (String × ChatHubMessage)) :
    ∀ (l : List String), List.Chain' (prevLink messages) l →
      ∀ b ∈ l.tail, ∃ m, messages.lookup b = some m := by
  intro l
  induction l with
  | nil =>
    intro _ b hb
    simp at hb
  | cons x t ih =>
    intro hch b hb
    simp only [List.tail_cons] at hb
    cases t with
    | nil => simp at hb
    | cons y t' =>
      rw [List.chain'_cons] at hch
      rcases List.mem_cons.mp hb with rfl | hmem
      · rcases Option.bind_eq_some.mp hch.1 with ⟨m, hm, _⟩
        exact ⟨m, hm⟩
      · exact ih hch.2 b hmem

/-- Resolving a `prevLink`-chained id list yields messages chained by
`previousMessageId`. -/
theorem resolve_chain (messages : List (String × ChatHubMessage))
    (hwf : ∀ p ∈ messages, p.2.id = p.1) :
    ∀ (l : List String), List.Chain' (prevLink messages) l →
      List.Chain' (fun a b => b.previousMessageId = some a.id)
        (l.filterMap (fun id => messages.lookup id)) := by
  intro l
  induction l with
  | nil =>
    intro _
    simp
  | cons x t ih =>
    intro hch
    have hcht : List.Chain' (prevLink messages) t := by
      cases t with
      | nil => simp
      | cons y t' => exact (List.chain'_cons.mp hch).2
    rw [List.filterMap_cons]
    rcases hlk : messages.lookup x with _ | mx
    · exact ih hcht
    · rw [List.chain'_cons']
      refine ⟨?_, ih hcht⟩
      intro my hmy
      cases t with
      | nil => simp at hmy
      | cons y t' =>
        have hlink : prevLink messages x y := (List.chain'_cons.mp hch).1
        rcases Option.bind_eq_some.mp hlink with ⟨m, hm, hprev⟩
        rw [List.filterMap_cons, hm, List.head?_cons] at hmy
        have hmym : my = m := (Option.some.inj (Option.mem_def.mp hmy)).symm
        have hid : mx.id = x := hwf (x, mx) (lookup_mem_pair hlk)
        rw [hmym, hprev, hid]

/-- The resolved messages' ids form a sublist of the walked ids. -/
theorem resolve_ids_sublist (messages : List (String × ChatHubMessage))
    (hwf : ∀ p ∈ messages, p.2.id = p.1) :
    ∀ (l : List String),
      ((l.filterMap (fun id => messages.lookup id)).map (fun m => m.id)).Sublist l := by
  intro l
  induction l with
  | nil => simp
  | cons x t ih =>
    rw [List.filterMap_cons]
    rcases hlk : messages.lookup x with _ | mx
    · exact List.Sublist.cons x ih
    · rw [List.map_cons]
      have hid : mx.id = x := hwf (x, mx) (lookup_mem_pair hlk)
      rw [hid]
      exact List.Sublist.cons₂ x ih

/-- Resolving the id whose lookup succeeds at the last position keeps it last. -/
theorem resolve_getLast (messages : List (String × ChatHubMessage))
    (l : List String) (lid : String) (m : ChatHubMessage)
    (hlast : l.getLast? = some lid) (hlk : messages.lookup lid = some m) :
    (l.filterMap (fun id => messages.lookup id)).getLast? = some m := by
  rcases List.getLast?_eq_some_iff.mp hlast with ⟨ys, rfl⟩
  rw [List.filterMap_append]
  have h1 : ([lid].filterMap (fun id => messages.lookup id)) = [m] := by
    simp [List.filterMap_cons, hlk]
  rw [h1]
  exact List.getLast?_concat _

/-- Transfer of the walk's stop condition to the resolved message list. -/
theorem resolve_head_stop (messages : List (String × ChatHubMessage))
    (hwf : ∀ p ∈ messages, p.2.id = p.1) (l : List String)
    (hch : List.Chain' (prevLink messages) l)
    (hstop : ∀ h, l.head? = some h →
      (messages.lookup h).bind (fun m => m.previousMessageId) = none ∨
      ∃ c, (messages.lookup h).bind (fun m => m.previousMessageId) = some c ∧ c ∈ l) :
    ∀ m₀ d, (l.filterMap (fun id => messages.lookup id)).head? = some m₀ →
      m₀.previousMessageId = some d →
      messages.lookup d = none ∨
      d ∈ (l.filterMap (fun id => messages.lookup id)).map (fun m => m.id) := by
  intro m₀ d hhead hprev
  rcases l with _ | ⟨h, t⟩
  · simp at hhead
  · rcases hlk : messages.lookup h with _ | mh
    · rw [List.filterMap_cons, hlk] at hhead
      cases t with
      | nil => simp at hhead
      | cons y t' =>
        have hlink : prevLink messages h y := (List.chain'_cons.mp hch).1
        rcases Option.bind_eq_some.mp hlink with ⟨my, hmy, hmyprev⟩
        rw [List.filterMap_cons, hmy, List.head?_cons] at hhead
        have : m₀ = my := (Option.some.inj hhead).symm
        subst this
        rw [hprev] at hmyprev
        have hd : d = h := Option.some.inj hmyprev
        rw [hd]
        exact Or.inl hlk
    · rw [List.filterMap_cons, hlk, List.head?_cons] at hhead
      have : m₀ = mh := (Option.some.inj hhead).symm
      subst this
      have hbind : (messages.lookup h).bind (fun m => m.previousMessageId) = some d := by
        rw [hlk]
        exact hprev
      rcases hstop h (List.head?_cons) with hnone | ⟨c, hc, hcl⟩
      · rw [hbind] at hnone
        exact absurd hnone (by simp)
      · rw [hbind] at hc
        have hcd : c = d := (Option.some.inj hc).symm
        subst hcd
        rcases hld : messages.lookup c with _ | mc
        · exact Or.inl rfl
        · right
          have hmem : mc ∈ (h :: t).filterMap (fun id => messages.lookup id) :=
            List.mem_filterMap.mpr ⟨c, hcl, hld⟩
          have hidc : mc.id = c := hwf (c, mc) (lookup_mem_pair hld)
          rw [← hidc]
          exact List.mem_map_of_mem _ hmem


/-- The id-keyed mapping built by the service is well formed by construction. -/
theorem messagesById_wf (msgs : List ChatHubMessage) :
    ∀ p ∈ messagesById msgs, p.2.id = p.1 := by
  intro p hp
  rcases List.mem_map.mp hp with ⟨m, _, rfl⟩
  rfl

/-- Aggregated correctness of `buildMessageHistory` over a well-formed mapping:
distinct ids, entries resolved from the mapping, chronological parent links,
the terminal message last, and corruption-tolerant stopping. -/
theorem buildMessageHistory_props (messages : List (String × ChatHubMessage))
    (lastMessageId : Option String)
    (hwf : ∀ p ∈ messages, p.2.id = p.1) :
    ((buildMessageHistory messages lastMessageId).map (fun m => m.id)).Nodup ∧
    (∀ m ∈ buildMessageHistory messages lastMessageId, messages.lookup m.id = some m) ∧
    List.Chain' (fun a b => b.previousMessageId = some a.id)
      (buildMessageHistory messages lastMessageId) ∧
    (∀ lid m, lastMessageId = some lid → messages.lookup lid = some m →
      (buildMessageHistory messages lastMessageId).getLast? = some m) ∧
    (∀ m₀ d, (buildMessageHistory messages lastMessageId).head? = some m₀ →
      m₀.previousMessageId = some d →
      messages.lookup d = none ∨
      d ∈ (buildMessageHistory messages lastMessageId).map (fun m => m.id)) := by
  cases lastMessageId with
  | none =>
    rw [buildMessageHistory, walkHistory_none]
    refine ⟨by simp, by simp, by simp, ?_, by simp⟩
    intro lid m hl _
    simp at hl
  | some lid =>
    have hrun := walkHistory_run messages lid
    rw [buildMessageHistory]
    refine ⟨?_, ?_, ?_, ?_, ?_⟩
    · exact List.Nodup.sublist (resolve_ids_sublist messages hwf _) hrun.1
    · intro m hm
      rcases List.mem_filterMap.mp hm with ⟨a, _, hlk⟩
      have hid : m.id = a := hwf (a, m) (lookup_mem_pair hlk)
      rw [hid]
      exact hlk
    · exact resolve_chain messages hwf _ hrun.2.1
    · intro lid2 m hl hm
      have hl2 : lid2 = lid := (Option.some.inj hl).symm
      subst hl2
      exact resolve_getLast messages _ lid2 m hrun.2.2.1 hm
    · exact resolve_head_stop messages hwf _ hrun.2.1 hrun.2.2.2

/-- The resolved history has pairwise-distinct elements. -/
theorem buildMessageHistory_nodup (msgs : List ChatHubMessage) (lastId : Option String) :
    (buildMessageHistory (messagesById msgs) lastId).Nodup :=
  List.Nodup.of_map _
    (buildMessageHistory_props (messagesById msgs) lastId (messagesById_wf msgs)).1

/-- A list whose `getLast?` is `some x` contains `x`. -/
theorem mem_of_getLast?_eq {α : Type} {l : List α} {x : α} (h : l.getLast? = some x) :
    x ∈ l := by
  rcases List.getLast?_eq_some_iff.mp h with ⟨ys, rfl⟩
  exact List.mem_append_right _ (by simp)

/-- The last element of a filtered list is a member satisfying the predicate. -/
theorem filter_getLast_mem {α : Type} (p : α → Bool) (l : List α) (x : α)
    (h : (l.filter p).getLast? = some x) : x ∈ l ∧ p x = true := by
  have hx : x ∈ l.filter p := mem_of_getLast?_eq h
  exact ⟨(List.mem_filter.mp hx).1, (List.mem_filter.mp hx).2⟩

/-- Appending a non-empty list decides the last element. -/
theorem getLast?_append_right {α : Type} (A B : List α) (h : B ≠ []) :
    (A ++ B).getLast? = B.getLast? := by
  rw [List.getLast?_append]
  rcases hB : B.getLast? with _ | b
  · rw [List.getLast?_eq_none_iff] at hB
    exact absurd hB h
  · rfl

/-- `findIdx?` decomposes a list at the first matching index. -/
theorem findIdx?_decomp {α : Type} (p : α → Bool) :
    ∀ (l : List α) (i : Nat), l.findIdx? p = some i →
      ∃ l₁ x l₂, l = l₁ ++ x :: l₂ ∧ l₁.length = i ∧ p x = true ∧ ∀ y ∈ l₁, p y = false := by
  intro l
  induction l with
  | nil =>
    intro i h
    simp [List.findIdx?] at h
  | cons a t ih =>
    intro i h
    rw [List.findIdx?_cons] at h
    by_cases hpa : p a
    · rw [if_pos hpa] at h
      refine ⟨[], a, t, by simp, ?_, hpa, by simp⟩
      simp [← Option.some.inj h]
    · rw [if_neg hpa] at h
      rw [List.findIdx?_succ] at h
      rcases Option.map_eq_some'.mp h with ⟨j, hj, hij⟩
      rcases ih j hj with ⟨l₁, x, l₂, hdec, hlen, hpx, hfalse⟩
      refine ⟨a :: l₁, x, l₂, by rw [hdec]; rfl, ?_, hpx, ?_⟩
      · rw [List.length_cons, hlen, hij]
      · intro y hy
        rcases List.mem_cons.mp hy with rfl | hyt
        · rw [Bool.not_eq_true] at hpa
          exact hpa
        · exact hfalse y hyt

/-- Truncation after the first match keeps the match last and drops the rest. -/
theorem take_drop_at_decomp {α : Type} (x : α) (l₁ l₂ : List α) :
    ((l₁ ++ x :: l₂).take (l₁.length + 1) = l₁ ++ [x]) ∧
    ((l₁ ++ x :: l₂).drop (l₁.length + 1) = l₂) := by
  constructor
  · rw [List.take_append]
    simp
  · rw [List.drop_append]
    simp

/-- If the last match of a filter sits at a unique position, everything after
that position fails the predicate. -/
theorem filter_getLast_no_later {α : Type} (p : α → Bool) (l₁ l₂ : List α) (x : α)
    (hnd : (l₁ ++ x :: l₂).Nodup)
    (hlast : ((l₁ ++ x :: l₂).filter p).getLast? = some x) :
    ∀ y ∈ l₂, p y = false := by
  intro y hy
  by_contra hpy
  rw [Bool.not_eq_false] at hpy
  have hyf : y ∈ l₂.filter p := List.mem_filter.mpr ⟨hy, hpy⟩
  have hne : l₂.filter p ≠ [] := fun hc => List.not_mem_nil y (hc ▸ hyf)
  have hBne : (x :: l₂).filter p ≠ [] := by
    rw [List.filter_cons]
    by_cases hpx : p x
    · rw [if_pos hpx]
      exact List.cons_ne_nil _ _
    · rw [if_neg hpx]
      exact hne
  have hxl2 : x ∈ l₂ := by
    rw [List.filter_append, getLast?_append_right _ _ hBne] at hlast
    rw [List.filter_cons] at hlast
    by_cases hpx : p x
    · rw [if_pos hpx] at hlast
      have hx2 : (l₂.filter p).getLast? = some x := by
        rw [show x :: l₂.filter p = [x] ++ l₂.filter p from rfl,
          getLast?_append_right [x] (l₂.filter p) hne] at hlast
        exact hlast
      exact (List.mem_filter.mp (mem_of_getLast?_eq hx2)).1
    · rw [if_neg hpx] at hlast
      exact (List.mem_filter.mp (mem_of_getLast?_eq hlast)).1
  have hnod := List.Nodup.of_append_right hnd
  rw [List.nodup_cons] at hnod
  exact hnod.1 hxl2

/-- Membership yields a first index for the structural-equality search. -/
theorem findIdx?_beq_of_mem {α : Type} [DecidableEq α] (l : List α) (x : α) (hx : x ∈ l) :
    ∃ i, l.findIdx? (fun m => m == x) = some i := by
  have hany : l.any (fun m => m == x) = true := List.any_eq_true.mpr ⟨x, hx, by simp⟩
  have hsome : (l.findIdx? (fun m => m == x)).isSome = l.any (fun m => m == x) :=
    List.findIdx?_isSome
  rw [hany] at hsome
  exact Option.isSome_iff_exists.mp hsome

/-- Claim C2: for every finite id-keyed mapping (including mappings with
`previousMessageId` cycles such as `A→B→A` and dangling links) and terminal
id, `buildMessageHistory` is a total function (it terminates without raising
an error), visits each id at most once (the resolved ids are distinct), and
returns the ancestor chain of the terminal message oldest-first: every entry
resolves in the mapping, consecutive entries are linked by
`previousMessageId`, the terminal message is last, and the walk stopped at the
oldest entry only on a null parent, a dangling link, or an already-visited
id. -/
theorem C2_buildMessageHistory (messages : List (String × ChatHubMessage))
    (lastMessageId : Option String)
    (hwf : ∀ p ∈ messages, p.2.id = p.1) :
    ((buildMessageHistory messages lastMessageId).map (fun m => m.id)).Nodup ∧
    (∀ m ∈ buildMessageHistory messages lastMessageId, messages.lookup m.id = some m) ∧
    List.Chain' (fun a b => b.previousMessageId = some a.id)
      (buildMessageHistory messages lastMessageId) ∧
    (∀ lid m, lastMessageId = some lid → messages.lookup lid = some m →
      (buildMessageHistory messages lastMessageId).getLast? = some m) ∧
    (∀ m₀ d, (buildMessageHistory messages lastMessageId).head? = some m₀ →
      m₀.previousMessageId = some d →
      messages.lookup d = none ∨
      d ∈ (buildMessageHistory messages lastMessageId).map (fun m => m.id)) :=
  buildMessageHistory_props messages lastMessageId hwf

/-- Evaluation of the walk on the demo chain `A ← B`. -/
theorem demoMap_hist_B : buildMessageHistory demoMap (some "B") = [demoMsgA, demoMsgB] := by
  rw [buildMessageHistory,
    walkHistory_some_not_mem demoMap (List.not_mem_nil "B"),
    (by decide : (demoMap.lookup "B").bind (fun m => m.previousMessageId) = some "A"),
    walkHistory_some_not_mem demoMap (by decide : "A" ∉ ["B"]),
    (by decide : (demoMap.lookup "A").bind (fun m => m.previousMessageId) = none),
    walkHistory_none]
  decide

/-- Evaluation of the walk ending at the demo root `A`. -/
theorem demoMap_hist_A : buildMessageHistory demoMap (some "A") = [demoMsgA] := by
  rw [buildMessageHistory,
    walkHistory_some_not_mem demoMap (List.not_mem_nil "A"),
    (by decide : (demoMap.lookup "A").bind (fun m => m.previousMessageId) = none),
    walkHistory_none]
  decide

/-- Evaluation of the walk from a null terminal id. -/
theorem hist_none_eval (messages : List (String × ChatHubMessage)) :
    buildMessageHistory messages none = [] := by
  rw [buildMessageHistory, walkHistory_none]
  rfl

/-- Witness for C2 on the concrete chain `A ← B`: the hypotheses hold and the
resolved history is `[A, B]` with the stated properties. -/
theorem C2_buildMessageHistory_witness :
    (∀ p ∈ demoMap, p.2.id = p.1) ∧
    ((buildMessageHistory demoMap (some "B")).map (fun m => m.id)).Nodup ∧
    List.Chain' (fun a b => b.previousMessageId = some a.id)
      (buildMessageHistory demoMap (some "B")) ∧
    (buildMessageHistory demoMap (some "B")).getLast? = some demoMsgB := by
  have hwf : ∀ p ∈ demoMap, p.2.id = p.1 := by decide
  have h := C2_buildMessageHistory demoMap (some "B") hwf
  exact ⟨hwf, h.1, h.2.2.1, h.2.2.2.1 "B" demoMsgB rfl (by decide)⟩

/-- In a strictly-increasing chunk list the last element bounds every
sequence number. -/
theorem pairwise_lt_getLast_max (l : List StreamChunk) :
    l.Pairwise (fun a b => a.sequenceNumber < b.sequenceNumber) →
    ∀ x, l.getLast? = some x → ∀ c ∈ l, c.sequenceNumber ≤ x.sequenceNumber := by
  induction l with
  | nil =>
    intro _ x hx
    simp at hx
  | cons a t ih =>
    intro hp x hx c hc
    rcases List.pairwise_cons.mp hp with ⟨ha, hp'⟩
    cases t with
    | nil =>
      have hxa : x = a := by
        simp only [List.getLast?_singleton] at hx
        exact (Option.some.inj hx).symm
      rcases List.mem_cons.mp hc with rfl | hct
      · exact le_of_eq (by rw [hxa])
      · simp at hct
    | cons b t' =>
      rw [List.getLast?_cons_cons] at hx
      have hxmem : x ∈ b :: t' := mem_of_getLast?_eq hx
      rcases List.mem_cons.mp hc with rfl | hct
      · exact le_of_lt (ha x hxmem)
      · exact ih hp' x hx c hct

/-- Claim C9: under the coordinator contract that `getPendingChunks` returns its
chunks in strictly increasing sequence order, `reconnectToStream` returns those
chunks unchanged and its `lastSequenceNumber` equals the maximum sequence
number of the pending chunks when some are pending (it is one of them and
bounds all of them), equals `lastReceivedSequence` unchanged when none are, and
never regresses below `lastReceivedSequence` when all pending sequences exceed
it. -/
theorem C9_reconnectToStream (env : StreamEnv) (sessionId : String)
    (lastReceivedSequence : Int)
    (hsorted : (env.getPendingChunks sessionId lastReceivedSequence).Pairwise
      (fun a b => a.sequenceNumber < b.sequenceNumber)) :
    (env.getPendingChunks sessionId lastReceivedSequence = [] →
      (reconnectToStream env sessionId lastReceivedSequence).lastSequenceNumber =
        lastReceivedSequence) ∧
    (env.getPendingChunks sessionId lastReceivedSequence ≠ [] →
      (reconnectToStream env sessionId lastReceivedSequence).lastSequenceNumber ∈
        (env.getPendingChunks sessionId lastReceivedSequence).map
          (fun c => c.sequenceNumber) ∧
      ∀ c ∈ env.getPendingChunks sessionId lastReceivedSequence,
        c.sequenceNumber ≤
          (reconnectToStream env sessionId lastReceivedSequence).lastSequenceNumber) ∧
    ((∀ c ∈ env.getPendingChunks sessionId lastReceivedSequence,
        lastReceivedSequence < c.sequenceNumber) →
      lastReceivedSequence ≤
        (reconnectToStream env sessionId lastReceivedSequence).lastSequenceNumber) ∧
    (reconnectToStream env sessionId lastReceivedSequence).pendingChunks =
      env.getPendingChunks sessionId lastReceivedSequence := by
  have hlast : (reconnectToStream env sessionId lastReceivedSequence).lastSequenceNumber =
      match (env.getPendingChunks sessionId lastReceivedSequence).getLast? with
      | some c => c.sequenceNumber
      | none => lastReceivedSequence := rfl
  rcases hgl : (env.getPendingChunks sessionId lastReceivedSequence).getLast? with _ | x
  · have hnil : env.getPendingChunks sessionId lastReceivedSequence = [] :=
      List.getLast?_eq_none_iff.mp hgl
    rw [hlast, hgl]
    refine ⟨fun _ => rfl, fun hne => absurd hnil hne, fun _ => le_refl _, rfl⟩
  · rw [hlast, hgl]
    have hxmem : x ∈ env.getPendingChunks sessionId lastReceivedSequence :=
      mem_of_getLast?_eq hgl
    refine ⟨?_, ?_, ?_, rfl⟩
    · intro hnil
      rw [hnil] at hgl
      simp at hgl
    · intro _
      exact ⟨List.mem_map_of_mem _ hxmem,
        pairwise_lt_getLast_max _ hsorted x hgl⟩
    · intro hgt
      exact le_of_lt (hgt x hxmem)

/-- Witness for C9: two pending chunks `1, 2` after acknowledging `0`; the
reported `lastSequenceNumber` is `2`, the maximum. -/
theorem C9_reconnectToStream_witness :
    (demoStreamEnv.getPendingChunks "s1" 0).Pairwise
      (fun a b => a.sequenceNumber < b.sequenceNumber) ∧
    (reconnectToStream demoStreamEnv "s1" 0).lastSequenceNumber ∈
      (demoStreamEnv.getPendingChunks "s1" 0).map (fun c => c.sequenceNumber) ∧
    (0 : Int) ≤ (reconnectToStream demoStreamEnv "s1" 0).lastSequenceNumber := by
  have hsorted : (demoStreamEnv.getPendingChunks "s1" 0).Pairwise
      (fun a b => a.sequenceNumber < b.sequenceNumber) := by decide
  have h := C9_reconnectToStream demoStreamEnv "s1" 0 hsorted
  exact ⟨hsorted, (h.2.1 (by decide)).1, h.2.2.1 (by decide)⟩

/-- Claim C10: `getConversations` requests `limit + 1` sessions and returns at
most `limit` of them: `hasMore` holds exactly when more than `limit` sessions
were found; the returned data is the first `limit` found sessions (converted
to DTOs) in that case and all found sessions otherwise; `nextCursor` is the id
of the last returned session when `hasMore` holds and null otherwise. -/
theorem C10_getConversations (env : ConversationsEnv) (userId : String) (limit : Nat)
    (cursor : Option String) (hpos : 0 < limit) :
    (getConversations env userId limit cursor).data.length ≤ limit ∧
    ((getConversations env userId limit cursor).hasMore = true ↔
      limit < (env.getManyByUserId userId (limit + 1) cursor).length) ∧
    (limit < (env.getManyByUserId userId (limit + 1) cursor).length →
      (getConversations env userId limit cursor).data =
        ((env.getManyByUserId userId (limit + 1) cursor).take limit).map
          env.convertSessionEntityToDto ∧
      ∃ s, ((env.getManyByUserId userId (limit + 1) cursor).take limit).getLast? = some s ∧
        (getConversations env userId limit cursor).nextCursor = some s.id) ∧
    (¬ limit < (env.getManyByUserId userId (limit + 1) cursor).length →
      (getConversations env userId limit cursor).data =
        (env.getManyByUserId userId (limit + 1) cursor).map env.convertSessionEntityToDto ∧
      (getConversations env userId limit cursor).nextCursor = none) := by
  by_cases hmore : limit < (env.getManyByUserId userId (limit + 1) cursor).length
  · have hlen : ((env.getManyByUserId userId (limit + 1) cursor).take limit).length = limit := by
      rw [List.length_take]
      exact min_eq_left (le_of_lt hmore)
    have hne : (env.getManyByUserId userId (limit + 1) cursor).take limit ≠ [] := by
      intro hc
      rw [hc] at hlen
      simp at hlen
      omega
    have hsome : (((env.getManyByUserId userId (limit + 1) cursor).take limit).getLast?).isSome
        = true := List.getLast?_isSome.mpr hne
    rcases Option.isSome_iff_exists.mp hsome with ⟨s, hs⟩
    refine ⟨?_, ?_, ?_, ?_⟩
    · simp only [getConversations, if_pos hmore, List.length_map]
      rw [hlen]
    · simp [getConversations, hmore]
    · intro _
      refine ⟨by simp only [getConversations, if_pos hmore], s, hs, ?_⟩
      simp only [getConversations, if_pos hmore, hs, Option.map_some']
    · intro hcon
      exact absurd hmore hcon
  · refine ⟨?_, ?_, ?_, ?_⟩
    · simp only [getConversations, if_neg hmore, List.length_map]
      omega
    · simp [getConversations, hmore]
    · intro hcon
      exact absurd hcon hmore
    · intro _
      exact ⟨by simp only [getConversations, if_neg hmore], by
        simp only [getConversations, if_neg hmore]⟩

/-- Witness for C10: three sessions found at `limit = 2` give `hasMore`, the
first two as data and the second id as the next cursor. -/
theorem C10_getConversations_witness :
    (0 < 2) ∧
    (getConversations demoConversationsEnv "u1" 2 none).hasMore = true ∧
    (getConversations demoConversationsEnv "u1" 2 none).data.length ≤ 2 ∧
    (getConversations demoConversationsEnv "u1" 2 none).nextCursor = some "1" := by
  have h := C10_getConversations demoConversationsEnv "u1" 2 none (by decide)
  have hmore : 2 < (demoConversationsEnv.getManyByUserId "u1" 3 none).length := by decide
  refine ⟨by decide, h.2.1.mpr hmore, h.1, ?_⟩
  rcases h.2.2.1 hmore with ⟨_, ⟨s, hs, hcur⟩⟩
  have hs2 : s = (⟨"1", "u1", "openai", []⟩ : ChatHubSession) := by
    have : ((demoConversationsEnv.getManyByUserId "u1" 3 none).take 2).getLast? =
        some (⟨"1", "u1", "openai", []⟩ : ChatHubSession) := by decide
    rw [this] at hs
    exact (Option.some.inj hs).symm
  rw [hcur, hs2]

/-- Claim C8: with a reachable session and target message, and collaborators
whose stop/update calls succeed, `stopGeneration` succeeds exactly when the
target is an AI message with a loaded workflow execution whose status is
exactly `running`; in that case the execution receives a stop call and the
message status is set to `cancelled`; in every other case the call is rejected
with an error and no stop or update call is issued. -/
theorem C8_stopGeneration (env : ChatEnv) (userId sessionId messageId : String)
    (m : ChatHubMessage)
    (hses : env.sessionExists userId sessionId = true)
    (hm : env.getMessage sessionId messageId = some m)
    (hstopOk : ∀ a b, env.stopExecution a b = Except.ok ())
    (hupdOk : ∀ a b, env.updateChatMessage a b = Except.ok ()) :
    ((stopGeneration env userId sessionId messageId).1 = Except.ok () ↔
      m.type = "ai" ∧ m.executionId.isSome = true ∧ m.execution.isSome = true ∧
        m.status = some "running") ∧
    (∀ ex, m.execution = some ex → m.type = "ai" → m.executionId.isSome = true →
      m.status = some "running" →
      stopGeneration env userId sessionId messageId =
        (Except.ok (), [ChatEvent.stoppedExecution ex.id ex.workflowId,
          ChatEvent.updatedChatMessage messageId ⟨none, some "cancelled"⟩])) ∧
    ((stopGeneration env userId sessionId messageId).1 ≠ Except.ok () →
      (stopGeneration env userId sessionId messageId).2 = []) := by
  by_cases hai : m.type = "ai"
  · rcases hexid : m.executionId with _ | exid
    · have heq : stopGeneration env userId sessionId messageId =
          (Except.error "Message is not associated with a workflow execution", []) := by
        simp [stopGeneration, hses, hm, hai, hexid]
      rw [heq]
      refine ⟨?_, ?_, ?_⟩
      · simp [hexid]
      · intro ex _ _ hcontra _
        simp at hcontra
      · intro _
        rfl
    · rcases hexec : m.execution with _ | ex
      · have heq : stopGeneration env userId sessionId messageId =
            (Except.error "Message is not associated with a workflow execution", []) := by
          simp [stopGeneration, hses, hm, hai, hexid, hexec]
        rw [heq]
        refine ⟨?_, ?_, ?_⟩
        · simp [hexec]
        · intro ex2 hcontra _ _ _
          simp at hcontra
        · intro _
          rfl
      · by_cases hrun : m.status = some "running"
        · have heq : stopGeneration env userId sessionId messageId =
              (Except.ok (), [ChatEvent.stoppedExecution ex.id ex.workflowId,
                ChatEvent.updatedChatMessage messageId ⟨none, some "cancelled"⟩]) := by
            simp [stopGeneration, hses, hm, hai, hexid, hexec, hrun, hstopOk, hupdOk]
          rw [heq]
          refine ⟨?_, ?_, ?_⟩
          · simp [hai, hexid, hexec, hrun]
          · intro ex2 hex2 _ _ _
            have hx : ex = ex2 := Option.some.inj hex2
            rw [← hx]
          · intro hcontra
            exact absurd rfl hcontra
        · have heq : stopGeneration env userId sessionId messageId =
              (Except.error "Can only stop messages that are currently running", []) := by
            simp [stopGeneration, hses, hm, hai, hexid, hexec, hrun]
          rw [heq]
          refine ⟨?_, ?_, ?_⟩
          · simp [hrun]
          · intro ex2 _ _ _ hcontra
            exact absurd hcontra hrun
          · intro _
            rfl
  · have heq : stopGeneration env userId sessionId messageId =
        (Except.error "Can only stop AI messages", []) := by
      simp [stopGeneration, hses, hm, hai]
    rw [heq]
    refine ⟨?_, ?_, ?_⟩
    · simp [hai]
    · intro ex _ hcontra _ _
      exact absurd hcontra hai
    · intro _
      rfl

/-- Witness for C8: stopping the running demo message cancels it after
stopping its execution, and the success condition holds. -/
theorem C8_stopGeneration_witness :
    stopEnv.sessionExists "u1" "s1" = true ∧
    stopEnv.getMessage "s1" "R" = some runningAiMsg ∧
    stopGeneration stopEnv "u1" "s1" "R" =
      (Except.ok (), [ChatEvent.stoppedExecution "e1" "w1",
        ChatEvent.updatedChatMessage "R" ⟨none, some "cancelled"⟩]) := by
  have h := C8_stopGeneration stopEnv "u1" "s1" "R" runningAiMsg rfl rfl
    (fun _ _ => rfl) (fun _ _ => rfl)
  exact ⟨rfl, rfl, h.2.1 runningExecution rfl rfl rfl rfl⟩

/-- Claim C4: in both `sendHumanMessage` and `editMessage`, whenever the
transactional phase fails after attachments were stored, deletion of exactly
those stored attachments is attempted, and the error returned to the caller is
the original transaction error both when the deletion succeeds and when it
fails — a deletion failure only adds a logged warning. -/
theorem C4_attachment_cleanup (env : ChatEnv) (userId : String)
    (hp : HumanMessagePayload) (ep : EditMessagePayload) (e e' : String) :
    ((sendHumanMessageTx env userId hp).result = Except.error e →
      0 < (sendHumanMessageTx env userId hp).stored.length →
      (env.deleteAttachments (sendHumanMessageTx env userId hp).stored = Except.ok () →
        sendHumanMessage env userId hp =
          (Except.error e, (sendHumanMessageTx env userId hp).events ++
            [ChatEvent.deletedAttachments (sendHumanMessageTx env userId hp).stored])) ∧
      (env.deleteAttachments (sendHumanMessageTx env userId hp).stored = Except.error e' →
        sendHumanMessage env userId hp =
          (Except.error e, (sendHumanMessageTx env userId hp).events ++
            [ChatEvent.deletedAttachments (sendHumanMessageTx env userId hp).stored,
             ChatEvent.warnedCleanup (sendHumanMessageTx env userId hp).stored.length]))) ∧
    ((editMessageTx env userId ep).result = Except.error e →
      0 < (editMessageTx env userId ep).stored.length →
      (env.deleteAttachments (editMessageTx env userId ep).stored = Except.ok () →
        editMessage env userId ep =
          (Except.error e, (editMessageTx env userId ep).events ++
            [ChatEvent.deletedAttachments (editMessageTx env userId ep).stored])) ∧
      (env.deleteAttachments (editMessageTx env userId ep).stored = Except.error e' →
        editMessage env userId ep =
          (Except.error e, (editMessageTx env userId ep).events ++
            [ChatEvent.deletedAttachments (editMessageTx env userId ep).stored,
             ChatEvent.warnedCleanup (editMessageTx env userId ep).stored.length]))) := by
  constructor
  · intro herr hstored
    constructor
    · intro hdel
      rw [sendHumanMessage, herr, attachmentCleanup, if_pos hstored, hdel]
    · intro hdel
      rw [sendHumanMessage, herr, attachmentCleanup, if_pos hstored, hdel]
  · intro herr hstored
    constructor
    · intro hdel
      rw [editMessage, herr, attachmentCleanup, if_pos hstored, hdel]
    · intro hdel
      rw [editMessage, herr, attachmentCleanup, if_pos hstored, hdel]

/-- Witness for C4: the demo environment stores one attachment, fails at
message insertion and fails again at deletion; the send call still reports the
insertion error and the trace shows the deletion attempt plus the warning. -/
theorem C4_attachment_cleanup_witness :
    (sendHumanMessageTx failingCreateEnv "u1" demoHumanPayload).result =
      Except.error "insert failed" ∧
    0 < (sendHumanMessageTx failingCreateEnv "u1" demoHumanPayload).stored.length ∧
    sendHumanMessage failingCreateEnv "u1" demoHumanPayload =
      (Except.error "insert failed",
        (sendHumanMessageTx failingCreateEnv "u1" demoHumanPayload).events ++
          [ChatEvent.deletedAttachments [⟨some "f1", some "f1", "image/png"⟩],
           ChatEvent.warnedCleanup 1]) := by
  have herr : (sendHumanMessageTx failingCreateEnv "u1" demoHumanPayload).result =
      Except.error "insert failed" := rfl
  have hstored : (sendHumanMessageTx failingCreateEnv "u1" demoHumanPayload).stored =
      [⟨some "f1", some "f1", "image/png"⟩] := rfl
  have h := (C4_attachment_cleanup failingCreateEnv "u1" demoHumanPayload
    ⟨"s1", "B", "m3", "x", ⟨"openai"⟩, [], []⟩ "insert failed" "delete failed").1
    herr (by rw [hstored]; decide)
  have h2 := h.2 (by rw [hstored]; rfl)
  refine ⟨herr, by rw [hstored]; decide, ?_⟩
  rw [h2, hstored]
  rfl

/-- Counterexample to claim C7 as stated: the claim keys the hosted-workflow
rejection to *the session's* provider, but `editMessage` tests
`payload.model.provider` (line 544 destructures `model` from the payload).
With a session bound to provider `n8n` while the edit call carries provider
`openai`, the AI edit is *not* rejected: it succeeds and overwrites the
content. -/
theorem C7_counterexample :
    n8nSession.provider = "n8n" ∧
    n8nSessionEnv.getSession "u1" demoEditAiPayload.sessionId = some n8nSession ∧
    n8nSessionEnv.getMessage n8nSession.id demoEditAiPayload.editId = some demoMsgB ∧
    demoMsgB.type = "ai" ∧
    demoEditAiPayload.model.provider = "openai" ∧
    editMessage n8nSessionEnv "u1" demoEditAiPayload =
      (Except.ok (), [ChatEvent.updatedChatMessage "B" ⟨some "edited text", none⟩]) :=
  ⟨rfl, rfl, rfl, rfl, rfl, rfl⟩

/-- Claim C7 (amended): for every `editMessage` call targeting an AI message,
when the *edit payload's* model provider is the hosted-workflow kind (`n8n`)
the call is rejected as unsupported with no collaborator call issued;
otherwise the only collaborator call is the in-place content update of the
target message — no new message row, no attachment store, no broadcast, no
reply-workflow preparation, no execution — and the call's outcome is the
update call's outcome. -/
theorem C7_editMessage_ai (env : ChatEnv) (userId : String) (p : EditMessagePayload)
    (session : ChatHubSession) (T : ChatHubMessage)
    (hs : env.getSession userId p.sessionId = some session)
    (hm : env.getMessage session.id p.editId = some T)
    (hai : T.type = "ai") :
    (p.model.provider = "n8n" →
      editMessage env userId p =
        (Except.error "Editing AI messages with n8n workflow agents is not supported", [])) ∧
    (p.model.provider ≠ "n8n" →
      (editMessageTx env userId p).events =
        [ChatEvent.updatedChatMessage p.editId ⟨some p.message, none⟩] ∧
      (env.updateChatMessage p.editId ⟨some p.message, none⟩ = Except.ok () →
        editMessage env userId p =
          (Except.ok (), [ChatEvent.updatedChatMessage p.editId ⟨some p.message, none⟩])) ∧
      (∀ e, env.updateChatMessage p.editId ⟨some p.message, none⟩ = Except.error e →
        editMessage env userId p =
          (Except.error e, [ChatEvent.updatedChatMessage p.editId ⟨some p.message, none⟩]))) := by
  constructor
  · intro hn8n
    have htx : editMessageTx env userId p =
        ⟨Except.error "Editing AI messages with n8n workflow agents is not supported", [], []⟩ := by
      simp [editMessageTx, hs, hm, hai, hn8n]
    rw [editMessage, htx]
    rfl
  · intro hnot
    rcases hupd : env.updateChatMessage p.editId ⟨some p.message, none⟩ with eu | u
    · have htx : editMessageTx env userId p =
          ⟨Except.error eu, [ChatEvent.updatedChatMessage p.editId ⟨some p.message, none⟩],
            []⟩ := by
        simp [editMessageTx, hs, hm, hai, hnot, hupd]
      refine ⟨by rw [htx], ?_, ?_⟩
      · intro hok
        simp at hok
      · intro e he
        have heu : eu = e := by injection he
        rw [editMessage, htx, ← heu]
        rfl
    · have htx : editMessageTx env userId p =
          ⟨Except.ok (none, []),
            [ChatEvent.updatedChatMessage p.editId ⟨some p.message, none⟩], []⟩ := by
        simp [editMessageTx, hs, hm, hai, hnot, hupd]
      refine ⟨by rw [htx], ?_, ?_⟩
      · intro _
        rw [editMessage, htx]
      · intro e he
        simp at he

/-- Witness for the amended C7: with a base-model provider the demo AI edit
only updates the content in place; with the hosted-workflow provider it is
rejected. -/
theorem C7_editMessage_ai_witness :
    demoMsgB.type = "ai" ∧
    editMessage baseEnv "u1" demoEditAiPayload =
      (Except.ok (), [ChatEvent.updatedChatMessage "B" ⟨some "edited text", none⟩]) ∧
    editMessage baseEnv "u1" demoEditAiPayloadN8n =
      (Except.error "Editing AI messages with n8n workflow agents is not supported", []) := by
  have h := C7_editMessage_ai baseEnv "u1" demoEditAiPayload demoSession demoMsgB rfl rfl rfl
  have h2 := C7_editMessage_ai baseEnv "u1" demoEditAiPayloadN8n demoSession demoMsgB rfl rfl rfl
  exact ⟨rfl, (h.2 (by decide)).2.1 rfl, h2.1 rfl⟩

/-- Claim C6: for every `editMessage` call targeting a human message (with the
new-attachment store and the row insertion succeeding), exactly one new
message row is created; its `revisionOfMessageId` is the target's own revision
root when set and the target's id otherwise (revision chains flatten to a
single root); its attachments are the originals selected by
`keepAttachmentIndices` (in that order, invalid indices dropped) followed by
the newly stored ones; and the reply history handed to workflow preparation is
built from the edited message's original `previousMessageId`. -/
theorem C6_editMessage_human (env : ChatEnv) (userId : String) (p : EditMessagePayload)
    (session : ChatHubSession) (T : ChatHubMessage) (newStored : List BinaryData)
    (hs : env.getSession userId p.sessionId = some session)
    (hm : env.getMessage session.id p.editId = some T)
    (ht : T.type = "human")
    (hstore : (if p.newAttachments.length > 0 then
        env.storeMessageAttachments p.sessionId p.messageId p.newAttachments
      else Except.ok []) = Except.ok newStored)
    (hcreate : env.createHumanMessage
      ⟨p.message,
        p.keepAttachmentIndices.flatMap (fun i => T.attachments[i]?.toList) ++ newStored,
        T.previousMessageId, some (T.revisionOfMessageId.getD T.id)⟩ = Except.ok ()) :
    (editMessageTx env userId p).events.filter
        (fun ev => match ev with | ChatEvent.createdHumanMessage _ => true | _ => false) =
      [ChatEvent.createdHumanMessage
        ⟨p.message,
          p.keepAttachmentIndices.flatMap (fun i => T.attachments[i]?.toList) ++ newStored,
          T.previousMessageId, some (T.revisionOfMessageId.getD T.id)⟩] ∧
    ChatEvent.preparedReply
        (buildMessageHistory (messagesById session.messages) T.previousMessageId)
        ⟨p.message,
          p.keepAttachmentIndices.flatMap (fun i => T.attachments[i]?.toList) ++ newStored⟩
      ∈ (editMessageTx env userId p).events := by
  have hne : ¬ T.type = "ai" := by
    rw [ht]
    decide
  rcases hprep : env.prepareReplyWorkflow
      (buildMessageHistory (messagesById session.messages) T.previousMessageId)
      ⟨p.message,
        p.keepAttachmentIndices.flatMap (fun i => T.attachments[i]?.toList) ++ newStored⟩
    with ep | w
  · have htx : (editMessageTx env userId p).events =
        (if p.newAttachments.length > 0 then
          [ChatEvent.storedAttachments p.sessionId p.messageId newStored]
        else []) ++
        [ChatEvent.createdHumanMessage
          ⟨p.message,
            p.keepAttachmentIndices.flatMap (fun i => T.attachments[i]?.toList) ++ newStored,
            T.previousMessageId, some (T.revisionOfMessageId.getD T.id)⟩] ++
        [ChatEvent.preparedReply
          (buildMessageHistory (messagesById session.messages) T.previousMessageId)
          ⟨p.message,
            p.keepAttachmentIndices.flatMap (fun i => T.attachments[i]?.toList) ++
              newStored⟩] := by
      simp [editMessageTx, hs, hm, hne, ht, hstore, hcreate, hprep]
    rw [htx]
    by_cases hlen : p.newAttachments.length > 0 <;> simp [hlen]
  · have htx : (editMessageTx env userId p).events =
        (if p.newAttachments.length > 0 then
          [ChatEvent.storedAttachments p.sessionId p.messageId newStored]
        else []) ++
        [ChatEvent.createdHumanMessage
          ⟨p.message,
            p.keepAttachmentIndices.flatMap (fun i => T.attachments[i]?.toList) ++ newStored,
            T.previousMessageId, some (T.revisionOfMessageId.getD T.id)⟩] ++
        [ChatEvent.preparedReply
          (buildMessageHistory (messagesById session.messages) T.previousMessageId)
          ⟨p.message,
            p.keepAttachmentIndices.flatMap (fun i => T.attachments[i]?.toList) ++
              newStored⟩] := by
      simp [editMessageTx, hs, hm, hne, ht, hstore, hcreate, hprep]
    rw [htx]
    by_cases hlen : p.newAttachments.length > 0 <;> simp [hlen]

/-- Witness for C6: editing the demo human message (revision root `H0`, its
two original attachments kept in swapped order, no new uploads) records
exactly one created row with the flattened root and the selected attachments,
and prepares the reply from the original parent (empty history). -/
theorem C6_editMessage_human_witness :
    demoMsgH.type = "human" ∧
    (editMessageTx editEnv "u1" demoEditHumanPayload).events.filter
        (fun ev => match ev with | ChatEvent.createdHumanMessage _ => true | _ => false) =
      [ChatEvent.createdHumanMessage
        ⟨"new text", [demoImgAttachment, demoTextAttachment], none, some "H0"⟩] ∧
    ChatEvent.preparedReply [] ⟨"new text", [demoImgAttachment, demoTextAttachment]⟩ ∈
      (editMessageTx editEnv "u1" demoEditHumanPayload).events := by
  have h := C6_editMessage_human editEnv "u1" demoEditHumanPayload editSession demoMsgH []
    rfl rfl rfl rfl rfl
  have hh : buildMessageHistory (messagesById editSession.messages)
      demoMsgH.previousMessageId = [] := hist_none_eval _
  rw [hh] at h
  exact ⟨rfl, h.1, h.2⟩

/-- Claim C5: for every regenerate call with reachable session and target
message `M`: a non-AI target, or a backward history containing no human
message, is rejected with a validation error and no collaborator call; else,
with `H` the most recent human message of `M`'s backward history, the history
handed to reply preparation is exactly the chronological chain up to and
including `H` (every message after `H` — those strictly between `H` and `M` —
is discarded from it and none of them is human), the input is `H`'s content
and attachments, no message row is created, updated or deleted from storage,
and the launched execution records `retryOfMessageId` as `M`'s own retry root
when set and `M`'s id otherwise, with `H` as the reply's parent. -/
theorem C5_regenerateAIMessage (env : ChatEnv) (userId : String)
    (p : RegenerateMessagePayload) (session : ChatHubSession) (M : ChatHubMessage)
    (hs : env.getSession userId p.sessionId = some session)
    (hm : env.getMessage session.id p.retryId = some M) :
    (¬ M.type = "ai" →
      regenerateAIMessage env userId p = (Except.error "Can only retry AI messages", [])) ∧
    (M.type = "ai" →
      ((buildMessageHistory (messagesById session.messages) M.previousMessageId).filter
        (fun m => m.type == "human")).getLast? = none →
      regenerateAIMessage env userId p =
        (Except.error "No human message found to base the retry on", [])) ∧
    (∀ H, M.type = "ai" →
      ((buildMessageHistory (messagesById session.messages) M.previousMessageId).filter
        (fun m => m.type == "human")).getLast? = some H →
      ∃ i,
        (buildMessageHistory (messagesById session.messages) M.previousMessageId).findIdx?
          (fun m => m == H) = some i ∧
        ((buildMessageHistory (messagesById session.messages) M.previousMessageId).take
          (i + 1)).getLast? = some H ∧
        (∀ m ∈ (buildMessageHistory (messagesById session.messages) M.previousMessageId).drop
          (i + 1), (m.type == "human") = false) ∧
        ChatEvent.preparedReply
            ((buildMessageHistory (messagesById session.messages) M.previousMessageId).take
              (i + 1)) ⟨H.content, H.attachments⟩
          ∈ (regenerateAIMessage env userId p).2 ∧
        (∀ args, ChatEvent.createdHumanMessage args ∉ (regenerateAIMessage env userId p).2) ∧
        (∀ mid upd,
          ChatEvent.updatedChatMessage mid upd ∉ (regenerateAIMessage env userId p).2) ∧
        (∀ atts, ChatEvent.deletedAttachments atts ∉ (regenerateAIMessage env userId p).2) ∧
        ((regenerateAIMessage env userId p).1 = Except.ok () →
          ChatEvent.executedWorkflow p.sessionId H.id (some (M.retryOfMessageId.getD M.id))
            none ∈ (regenerateAIMessage env userId p).2)) := by
  refine ⟨?_, ?_, ?_⟩
  · intro hne
    simp [regenerateAIMessage, hs, hm, hne]
  · intro hai hnone
    simp [regenerateAIMessage, hs, hm, hai, hnone]
  · intro H hai hsome
    have hmem := filter_getLast_mem _ _ _ hsome
    rcases findIdx?_beq_of_mem _ H hmem.1 with ⟨i, hfind⟩
    rcases findIdx?_decomp _ _ i hfind with ⟨l₁, x, l₂, hdec, hlen, hpx, hfalse⟩
    have hxH : x = H := eq_of_beq hpx
    subst hxH
    have htake : (buildMessageHistory (messagesById session.messages)
        M.previousMessageId).take (i + 1) = l₁ ++ [x] := by
      rw [hdec, ← hlen]
      exact (take_drop_at_decomp x l₁ l₂).1
    have hdrop : (buildMessageHistory (messagesById session.messages)
        M.previousMessageId).drop (i + 1) = l₂ := by
      rw [hdec, ← hlen]
      exact (take_drop_at_decomp x l₁ l₂).2
    have hnd : (buildMessageHistory (messagesById session.messages)
        M.previousMessageId).Nodup := buildMessageHistory_nodup _ _
    have hnol : ∀ y ∈ l₂, (y.type == "human") = false :=
      filter_getLast_no_later _ l₁ l₂ x (hdec ▸ hnd) (hdec ▸ hsome)
    rcases hprep : env.prepareReplyWorkflow
        ((buildMessageHistory (messagesById session.messages) M.previousMessageId).take
          (i + 1)) ⟨x.content, x.attachments⟩ with ep | w
    · have hreg : regenerateAIMessage env userId p =
          (Except.error ep,
            [ChatEvent.preparedReply
              ((buildMessageHistory (messagesById session.messages)
                M.previousMessageId).take (i + 1)) ⟨x.content, x.attachments⟩]) := by
        simp [regenerateAIMessage, hs, hm, hai, hsome, hfind, hprep]
      refine ⟨i, hfind, ?_, ?_, ?_, ?_, ?_, ?_, ?_⟩
      · rw [htake]
        exact List.getLast?_concat l₁
      · rw [hdrop]
        exact hnol
      · rw [hreg]
        simp
      · intro args
        rw [hreg]
        simp
      · intro mid upd
        rw [hreg]
        simp
      · intro atts
        rw [hreg]
        simp
      · intro hok
        rw [hreg] at hok
        simp at hok
    · have hreg : regenerateAIMessage env userId p =
          (Except.ok (),
            [ChatEvent.preparedReply
              ((buildMessageHistory (messagesById session.messages)
                M.previousMessageId).take (i + 1)) ⟨x.content, x.attachments⟩,
             ChatEvent.executedWorkflow p.sessionId x.id
              (some (M.retryOfMessageId.getD M.id)) none]) := by
        simp [regenerateAIMessage, hs, hm, hai, hsome, hfind, hprep, executeWithCleanupEvents]
      refine ⟨i, hfind, ?_, ?_, ?_, ?_, ?_, ?_, ?_⟩
      · rw [htake]
        exact List.getLast?_concat l₁
      · rw [hdrop]
        exact hnol
      · rw [hreg]
        simp
      · intro args
        rw [hreg]
        simp
      · intro mid upd
        rw [hreg]
        simp
      · intro atts
        rw [hreg]
        simp
      · intro _
        rw [hreg]
        simp

/-- Witness for C5: regenerating the demo AI reply `B` prepares the reply from
exactly `[A]` (the chain up to the most recent human message) with `A`'s
content and attachments as input, and creates no message row. -/
theorem C5_regenerateAIMessage_witness :
    demoMsgB.type = "ai" ∧
    ChatEvent.preparedReply [demoMsgA] ⟨"hi", []⟩ ∈
      (regenerateAIMessage baseEnv "u1" demoRegenPayload).2 ∧
    (∀ args, ChatEvent.createdHumanMessage args ∉
      (regenerateAIMessage baseEnv "u1" demoRegenPayload).2) := by
  have hh : buildMessageHistory (messagesById demoSession.messages)
      demoMsgB.previousMessageId = [demoMsgA] := demoMap_hist_A
  have h := C5_regenerateAIMessage baseEnv "u1" demoRegenPayload demoSession demoMsgB rfl rfl
  have h3 := h.2.2 demoMsgA rfl (by rw [hh]; rfl)
  rcases h3 with ⟨i, hfind, _, _, hprep, hnocreate, _⟩
  have hi : i = 0 := by
    rw [hh] at hfind
    have h0 : ([demoMsgA].findIdx? (fun m => m == demoMsgA)) = some 0 := by decide
    rw [h0] at hfind
    exact (Option.some.inj hfind).symm
  rw [hh, hi] at hprep
  exact ⟨rfl, hprep, hnocreate⟩

/-- Counterexample to claim C3 as stated: an error raised while fetching
attachment bytes is *not* converted into a placeholder — the `catch` rethrows
every error other than the two internal signal classes (`throw e`), so the
fetch failure propagates to the caller. -/
theorem C3_counterexample :
    isTextFile demoTextAttachment.mimeType = true ∧
    failFetchEnv.getAsBuffer demoTextAttachment = Except.error "fetch failed" ∧
    0 < maxTotalPayloadSize ∧
    buildContentBlockForAttachment failFetchEnv (.file demoTextAttachment) 0
      maxTotalPayloadSize demoMeta "File" = Except.error "fetch failed" :=
  ⟨by decide, rfl, by decide, rfl⟩

/-- Case analysis of the try body: produced blocks are never empty, and a
fetch-failure outcome carries exactly an error raised by the attachment
store on this item's binary data. -/
theorem buildContentBlockBody_cases (env : AttachmentEnv) (file : KnowledgeItem)
    (currentTotalSize maxSize : Nat) (meta : ModelMetadata) (pfx : String) :
    (∀ bs, buildContentBlockBody env file currentTotalSize maxSize meta pfx =
      AttachmentOutcome.blocks bs → bs ≠ []) ∧
    (∀ e, buildContentBlockBody env file currentTotalSize maxSize meta pfx =
      AttachmentOutcome.fetchFailure e →
      ∃ att, file = KnowledgeItem.file att ∧
        (env.getAsBuffer att = Except.error e ∨ env.getDataUrl att = Except.error e)) := by
  constructor
  · intro bs h
    rcases file with fn | att
    · simp only [buildContentBlockBody] at h
      by_cases hsize : currentTotalSize ≥ maxSize
      · rw [if_pos hsize] at h
        simp at h
      · rw [if_neg hsize] at h
        simp at h
        rw [← h]
        simp
    · simp only [buildContentBlockBody] at h
      by_cases hsize : currentTotalSize ≥ maxSize
      · rw [if_pos hsize] at h
        simp at h
      · rw [if_neg hsize] at h
        by_cases htext : isTextFile att.mimeType
        · rw [if_pos htext] at h
          rcases hga : env.getAsBuffer att with e0 | content
          · simp only [hga] at h
            simp at h
          · simp only [hga] at h
            by_cases hover : currentTotalSize + content.length > maxSize
            · rw [if_pos hover] at h
              simp at h
            · rw [if_neg hover] at h
              simp at h
              rw [← h]
              simp
        · rw [if_neg htext] at h
          by_cases hmod : meta.inputModalities.contains
              (env.getMimeTypeModality att.mimeType)
          · rw [if_pos hmod] at h
            rcases hdu : env.getDataUrl att with e0 | url
            · simp only [hdu] at h
              simp at h
            · simp only [hdu] at h
              by_cases hover : currentTotalSize + url.length > maxSize
              · rw [if_pos hover] at h
                simp at h
              · rw [if_neg hover] at h
                simp at h
                rw [← h]
                simp
          · rw [if_neg hmod] at h
            simp at h
  · intro e h
    rcases file with fn | att
    · simp only [buildContentBlockBody] at h
      by_cases hsize : currentTotalSize ≥ maxSize
      · rw [if_pos hsize] at h
        simp at h
      · rw [if_neg hsize] at h
        simp at h
    · simp only [buildContentBlockBody] at h
      by_cases hsize : currentTotalSize ≥ maxSize
      · rw [if_pos hsize] at h
        simp at h
      · rw [if_neg hsize] at h
        by_cases htext : isTextFile att.mimeType
        · rw [if_pos htext] at h
          rcases hga : env.getAsBuffer att with e0 | content
          · simp only [hga] at h
            have he : e0 = e := by
              injection h
            exact ⟨att, rfl, Or.inl (by rw [hga, he])⟩
          · simp only [hga] at h
            by_cases hover : currentTotalSize + content.length > maxSize
            · rw [if_pos hover] at h
              simp at h
            · rw [if_neg hover] at h
              simp at h
        · rw [if_neg htext] at h
          by_cases hmod : meta.inputModalities.contains
              (env.getMimeTypeModality att.mimeType)
          · rw [if_pos hmod] at h
            rcases hdu : env.getDataUrl att with e0 | url
            · simp only [hdu] at h
              have he : e0 = e := by
                injection h
              exact ⟨att, rfl, Or.inr (by rw [hdu, he])⟩
            · simp only [hdu] at h
              by_cases hover : currentTotalSize + url.length > maxSize
              · rw [if_pos hover] at h
                simp at h
              · rw [if_neg hover] at h
                simp at h
          · rw [if_neg hmod] at h
            simp at h

/-- Claim C3 (amended): whenever `buildContentBlockForAttachment` returns, the
returned block sequence is non-empty, and the two internal signals
(size-exceeded and unsupported-mimetype) are always converted into text
placeholder outcomes; but an error raised while fetching attachment bytes or
data URLs is rethrown by the `catch` and propagates to the caller — the only
errors the procedure can propagate are such store errors on the item's own
binary data. -/
theorem C3_buildContentBlockForAttachment (env : AttachmentEnv) (file : KnowledgeItem)
    (currentTotalSize maxSize : Nat) (meta : ModelMetadata) (pfx : String) :
    (∀ bs, buildContentBlockForAttachment env file currentTotalSize maxSize meta pfx =
      Except.ok bs → bs ≠ []) ∧
    (∀ e, buildContentBlockForAttachment env file currentTotalSize maxSize meta pfx =
      Except.error e →
      ∃ att, file = KnowledgeItem.file att ∧
        (env.getAsBuffer att = Except.error e ∨ env.getDataUrl att = Except.error e)) := by
  have hbody := buildContentBlockBody_cases env file currentTotalSize maxSize meta pfx
  constructor
  · intro bs h
    unfold buildContentBlockForAttachment at h
    cases hb : buildContentBlockBody env file currentTotalSize maxSize meta pfx with
    | blocks bs0 =>
      simp only [hb] at h
      simp at h
      rw [← h]
      exact hbody.1 bs0 hb
    | totalFileSizeExceeded =>
      simp only [hb] at h
      simp at h
      rw [← h]
      simp
    | unsupportedMimeType =>
      simp only [hb] at h
      simp at h
      rw [← h]
      simp
    | fetchFailure e0 =>
      simp only [hb] at h
      simp at h
  · intro e h
    unfold buildContentBlockForAttachment at h
    cases hb : buildContentBlockBody env file currentTotalSize maxSize meta pfx with
    | blocks bs0 =>
      simp only [hb] at h
      simp at h
    | totalFileSizeExceeded =>
      simp only [hb] at h
      simp at h
    | unsupportedMimeType =>
      simp only [hb] at h
      simp at h
    | fetchFailure e0 =>
      simp only [hb] at h
      have he : e0 = e := by
        injection h
      exact hbody.2 e (by rw [← he]; exact hb)
  
/-- Witness for the amended C3: a successful text inline yields a non-empty
block list, and a failing fetch yields exactly the store's error. -/
theorem C3_buildContentBlockForAttachment_witness :
    (buildContentBlockForAttachment okFetchEnv (.file demoTextAttachment) 0
      maxTotalPayloadSize demoMeta "File" =
        Except.ok [ContentBlock.text "File: notes.txt\nContent: \nDATA"]) ∧
    [ContentBlock.text "File: notes.txt\nContent: \nDATA"] ≠ [] ∧
    (∃ att, KnowledgeItem.file demoTextAttachment = KnowledgeItem.file att ∧
      (failFetchEnv.getAsBuffer att = Except.error "fetch failed" ∨
        failFetchEnv.getDataUrl att = Except.error "fetch failed")) := by
  have hok : buildContentBlockForAttachment okFetchEnv (.file demoTextAttachment) 0
      maxTotalPayloadSize demoMeta "File" =
        Except.ok [ContentBlock.text "File: notes.txt\nContent: \nDATA"] := rfl
  refine ⟨hok, ?_, ?_⟩
  · exact (C3_buildContentBlockForAttachment okFetchEnv (.file demoTextAttachment) 0
      maxTotalPayloadSize demoMeta "File").1 _ hok
  · exact (C3_buildContentBlockForAttachment failFetchEnv (.file demoTextAttachment) 0
      maxTotalPayloadSize demoMeta "File").2 "fetch failed" rfl

/-- Entry cutoff: once the running size has reached the ceiling, every
attachment resolves to the size-limit placeholder. -/
theorem sizeLimit_placeholder (env : AttachmentEnv) (file : KnowledgeItem)
    (size maxSize : Nat) (meta : ModelMetadata) (pfx : String) (h : maxSize ≤ size) :
    buildContentBlockForAttachment env file size maxSize meta pfx =
      Except.ok [ContentBlock.text (pfx ++ ": " ++ catchFileName file ++
        "\n(Content omitted due to size limit)")] := by
  have hbody : buildContentBlockBody env file size maxSize meta pfx =
      AttachmentOutcome.totalFileSizeExceeded := by
    unfold buildContentBlockBody
    rw [if_pos h]
  unfold buildContentBlockForAttachment
  rw [hbody]

/-- The running size counter never decreases across the attachment loop. -/
theorem appendAttachmentBlocks_size_mono (env : AttachmentEnv) (meta : ModelMetadata) :
    ∀ (atts : List BinaryData) (blocks : List ContentBlock) (size : Nat)
      (out : List ContentBlock × Nat),
      appendAttachmentBlocks env meta atts blocks size = Except.ok out → size ≤ out.2 := by
  intro atts
  induction atts with
  | nil =>
    intro blocks size out h
    simp only [appendAttachmentBlocks] at h
    have hout : (blocks, size) = out := by
      injection h
    rw [← hout]
  | cons a rest ih =>
    intro blocks size out h
    simp only [appendAttachmentBlocks] at h
    rcases hr : buildContentBlockForAttachment env (.file a) size maxTotalPayloadSize meta
      "File" with e | abs
    · simp only [hr] at h
      simp at h
    · simp only [hr] at h
      have hrec := ih _ _ _ h
      omega

/-- The running size counter never decreases across the per-message loop. -/
theorem processHistoryMessages_size_mono (env : AttachmentEnv) (meta : ModelMetadata) :
    ∀ (msgs : List ChatHubMessage) (acc : List MessageRecord) (size : Nat)
      (out : List MessageRecord × Nat),
      processHistoryMessages env meta msgs acc size = Except.ok out → size ≤ out.2 := by
  intro msgs
  induction msgs with
  | nil =>
    intro acc size out h
    simp only [processHistoryMessages] at h
    have hout : (acc, size) = out := by
      injection h
    rw [← hout]
  | cons m rest ih =>
    intro acc size out h
    simp only [processHistoryMessages] at h
    by_cases hz : m.content.length = 0
    · rw [if_pos hz] at h
      exact ih _ _ _ h
    · rw [if_neg hz] at h
      by_cases hatt : m.attachments.isEmpty
      · rw [if_pos hatt] at h
        have hrec := ih _ _ _ h
        omega
      · rw [if_neg hatt] at h
        rcases hap : appendAttachmentBlocks env meta m.attachments
            [ContentBlock.text m.content] (size + m.content.length) with e | ⟨blocks2, size2⟩
        · simp only [hap] at h
          simp at h
        · simp only [hap] at h
          have h1 := appendAttachmentBlocks_size_mono env meta _ _ _ _ hap
          have h2 := ih _ _ _ h
          simp at h1
          omega

/-- Budget gating of a textual attachment: within budget it is inlined, past
the budget it degrades to the size-limit placeholder. -/
theorem text_attachment_gating (env : AttachmentEnv) (meta : ModelMetadata)
    (att : BinaryData) (size : Nat) (pfx content : String)
    (htext : isTextFile att.mimeType = true)
    (hga : env.getAsBuffer att = Except.ok content)
    (hsize : size < maxTotalPayloadSize) :
    (maxTotalPayloadSize < size + content.length →
      buildContentBlockForAttachment env (.file att) size maxTotalPayloadSize meta pfx =
        Except.ok [ContentBlock.text (pfx ++ ": " ++ att.fileName.getD "attachment" ++
          "\n(Content omitted due to size limit)")]) ∧
    (size + content.length ≤ maxTotalPayloadSize →
      buildContentBlockForAttachment env (.file att) size maxTotalPayloadSize meta pfx =
        Except.ok [ContentBlock.text (pfx ++ ": " ++ att.fileName.getD "attachment" ++
          "\nContent: \n" ++ content)]) := by
  have hnot : ¬ size ≥ maxTotalPayloadSize := by omega
  constructor
  · intro hover
    have hbody : buildContentBlockBody env (.file att) size maxTotalPayloadSize meta pfx =
        AttachmentOutcome.totalFileSizeExceeded := by
      simp only [buildContentBlockBody]
      rw [if_neg hnot, if_pos htext]
      simp only [hga]
      rw [if_pos hover]
    unfold buildContentBlockForAttachment
    rw [hbody]
    rfl
  · intro hfits
    have hnover : ¬ size + content.length > maxTotalPayloadSize := by omega
    have hbody : buildContentBlockBody env (.file att) size maxTotalPayloadSize meta pfx =
        AttachmentOutcome.blocks [ContentBlock.text (pfx ++ ": " ++
          att.fileName.getD "attachment" ++ "\nContent: \n" ++ content)] := by
      simp only [buildContentBlockBody]
      rw [if_neg hnot, if_pos htext]
      simp only [hga]
      rw [if_neg hnover]
    unfold buildContentBlockForAttachment
    rw [hbody]

/-- Claim C1 (amended): `buildConversationHistory` does *not* bound the
cumulative emitted content by the budget — message text, labels and
placeholders are emitted and counted regardless of it (see the
counterexample).  What the builder guarantees instead: (1) any attachment
processed once the running size counter has reached the ceiling — in the
newest-first traversal these are the older-in-history ones — resolves to the
size-limit placeholder; (2)–(3) the running counter is monotone along the
attachment loop and the message loop, so the cutoff persists once crossed;
(4) a textual attachment is inlined exactly when the running counter plus its
content stays within the ceiling, and degrades to the size-limit placeholder
otherwise. -/
theorem C1_buildConversationHistory_budget (env : AttachmentEnv) (meta : ModelMetadata) :
    (∀ file size pfx, maxTotalPayloadSize ≤ size →
      buildContentBlockForAttachment env file size maxTotalPayloadSize meta pfx =
        Except.ok [ContentBlock.text (pfx ++ ": " ++ catchFileName file ++
          "\n(Content omitted due to size limit)")]) ∧
    (∀ atts blocks size out,
      appendAttachmentBlocks env meta atts blocks size = Except.ok out → size ≤ out.2) ∧
    (∀ msgs acc size out,
      processHistoryMessages env meta msgs acc size = Except.ok out → size ≤ out.2) ∧
    (∀ att size pfx content, isTextFile att.mimeType = true →
      env.getAsBuffer att = Except.ok content → size < maxTotalPayloadSize →
      (maxTotalPayloadSize < size + content.length →
        buildContentBlockForAttachment env (.file att) size maxTotalPayloadSize meta pfx =
          Except.ok [ContentBlock.text (pfx ++ ": " ++ att.fileName.getD "attachment" ++
            "\n(Content omitted due to size limit)")]) ∧
      (size + content.length ≤ maxTotalPayloadSize →
        buildContentBlockForAttachment env (.file att) size maxTotalPayloadSize meta pfx =
          Except.ok [ContentBlock.text (pfx ++ ": " ++ att.fileName.getD "attachment" ++
            "\nContent: \n" ++ content)])) :=
  ⟨fun file size pfx h => sizeLimit_placeholder env file size maxTotalPayloadSize meta pfx h,
   appendAttachmentBlocks_size_mono env meta,
   processHistoryMessages_size_mono env meta,
   fun att size pfx content htext hga hsize =>
     text_attachment_gating env meta att size pfx content htext hga hsize⟩

/-- With no context files, the assembled conversation is the reversed output
of the per-message loop. -/
theorem buildConversationHistory_no_context (env : AttachmentEnv) (meta : ModelMetadata)
    (history : List ChatHubMessage) (mv : List MessageRecord) (size : Nat)
    (hp : processHistoryMessages env meta history.reverse [] 0 = Except.ok (mv, size)) :
    buildConversationHistory env history meta [] = Except.ok mv.reverse := by
  simp only [buildConversationHistory]
  rw [hp]
  rfl

/-- Counterexample to claim C1 as stated: a single human message whose text is
one char longer than the ceiling is emitted in full — message text is counted
against the running size but never gated — so the cumulative emitted content
size exceeds the configured budget. -/
theorem C1_counterexample :
    buildConversationHistory okFetchEnv [bigMsg] demoMeta [] =
      Except.ok [⟨"user", RecordContent.str hugeText, false⟩] ∧
    maxTotalPayloadSize <
      (([⟨"user", RecordContent.str hugeText, false⟩] : List MessageRecord).map
        recordSize).sum := by
  have hlen : hugeText.length = maxTotalPayloadSize + 1 := by
    have h1 : hugeText.length = (List.replicate (maxTotalPayloadSize + 1) 'a').length := rfl
    rw [h1, List.length_replicate]
  have hnz : ¬ bigMsg.content.length = 0 := by
    show ¬ hugeText.length = 0
    rw [hlen]
    omega
  have hproc : processHistoryMessages okFetchEnv demoMeta ([bigMsg].reverse) [] 0 =
      Except.ok ([⟨"user", RecordContent.str bigMsg.content, false⟩],
        0 + bigMsg.content.length) := by
    have hrev : ([bigMsg].reverse) = [bigMsg] := rfl
    rw [hrev]
    simp only [processHistoryMessages]
    rw [if_neg hnz]
    rfl
  constructor
  · have h2 := buildConversationHistory_no_context okFetchEnv demoMeta [bigMsg] _ _ hproc
    rw [h2]
    rfl
  · have hsum : (([⟨"user", RecordContent.str hugeText, false⟩] : List MessageRecord).map
        recordSize).sum = hugeText.length := by
      rw [List.map_singleton, List.sum_singleton]
      exact rfl
    rw [hsum, hlen]
    omega

/-- Witness for the amended C1: at the ceiling every attachment degrades to
the size-limit placeholder, below it a small text attachment is inlined. -/
theorem C1_budget_witness :
    buildContentBlockForAttachment okFetchEnv (.embedding "doc") maxTotalPayloadSize
      maxTotalPayloadSize demoMeta "File" =
      Except.ok [ContentBlock.text "File: doc\n(Content omitted due to size limit)"] ∧
    buildContentBlockForAttachment okFetchEnv (.file demoTextAttachment) 0
      maxTotalPayloadSize demoMeta "File" =
      Except.ok [ContentBlock.text "File: notes.txt\nContent: \nDATA"] := by
  have h := C1_buildConversationHistory_budget okFetchEnv demoMeta
  constructor
  · have h1 := h.1 (.embedding "doc") maxTotalPayloadSize "File" (le_refl _)
    rw [h1]
    rfl
  · have h4 := (h.2.2.2 demoTextAttachment 0 "File" "DATA" (by decide) rfl (by decide)).2
      (by decide)
    rw [h4]
    rfl

end ChatHub
